import Mathlib

/-!
Verification of the process kernel and filesystem of a small RISC-V OS.

The definitions below are a shallow embedding of the C++ sources:
`memory.cpp` (bump allocator), `scheduler.cpp` (process table, semaphores,
round-robin dispatch and return hook), `trap.cpp` (syscall dispatcher) and
`fat.cpp` / `shell.cpp` (pool-backed in-memory filesystem and the `cat`/`edit`
commands).  Machine pointers are modelled as natural-number addresses or as
indices into the static pools; the intrusive `next_blocked` linked list of a
semaphore is modelled as a list of process-table indices kept in lockstep with
the per-PCB `next_blocked` field (the code only ever pushes at the head and
pops at the head).
-/

namespace OS

abbrev MAX_PROCS : Nat := 16
abbrev MAX_SEMS : Nat := 32
abbrev DEFAULT_STACK_SIZE : Nat := 4096

abbrev SYSCALL_EXIT : Nat := 93
abbrev SYSCALL_YIELD : Nat := 124
abbrev SYSCALL_SEM_CREATE : Nat := 150
abbrev SYSCALL_SEM_WAIT : Nat := 151
abbrev SYSCALL_SEM_SIGNAL : Nat := 152
abbrev SYSCALL_SEM_DESTROY : Nat := 153

/-- The known syscall ids dispatched by `trap_handler` (trap.cpp). -/
def knownSyscalls : List Nat :=
  [SYSCALL_EXIT, SYSCALL_YIELD, SYSCALL_SEM_CREATE, SYSCALL_SEM_WAIT,
   SYSCALL_SEM_SIGNAL, SYSCALL_SEM_DESTROY]

/-- The bump-allocator state of memory.cpp: `heap_ptr` and `heap_limit`. -/
structure Heap where
  heap_ptr : Nat
  heap_limit : Nat
deriving DecidableEq

/-- memory.cpp `kmalloc`.  The `uint64_t` size parameter is taken mod 2^64;
size 0 is refused; `(size + 15) & ~15ULL` is computed in 64-bit arithmetic,
so for sizes of 2^64 - 15 and above the aligned size wraps around to 0 (and
the call then hands out the current `heap_ptr` advancing it by nothing); the
allocation is refused when `heap_ptr + size >= heap_limit` (note `>=`, not
`>`); otherwise the old `heap_ptr` is returned and the pointer is bumped.
`heap_ptr` and `heap_limit` are modelled as mathematical addresses. -/
def kmalloc (h : Heap) (size : Nat) : Heap × Option Nat :=
  if size % 2 ^ 64 = 0 then (h, none)
  else
    if h.heap_limit ≤ h.heap_ptr + (size % 2 ^ 64 + 15) % 2 ^ 64 / 16 * 16 then
      (h, none)
    else
      ({ h with heap_ptr := h.heap_ptr + (size % 2 ^ 64 + 15) % 2 ^ 64 / 16 * 16 },
       some h.heap_ptr)

/-- Process states (scheduler.h `ProcState`). -/
inductive ProcState where
  | FREE
  | READY
  | RUNNING
  | BLOCKED_SEM
  | SLEEP
  | ZOMBIE
deriving DecidableEq

/-- A process control block (scheduler.h `Process`).  Pointer fields are
`Option`s; `next_blocked` holds the process-table index of the next PCB on the
same semaphore wait list. -/
structure Process where
  pid : Int
  name : Option String
  entry : Option Nat
  stack : Option Nat
  stack_top : Option Nat
  stack_size : Nat
  state : ProcState
  blocked_sem_id : Int
  next_blocked : Option (Fin MAX_PROCS)
deriving DecidableEq

/-- A counting semaphore (scheduler.h `Semaphore`).  `blocked_list` is the
intrusive wait list, represented as the list of process-table indices from the
head pointer onwards. -/
structure Semaphore where
  id : Int
  value : Int
  owner_pid : Int
  blocked_list : List (Fin MAX_PROCS)
  in_use : Bool
deriving DecidableEq

/-- The global kernel state of scheduler.cpp: process table, semaphore table,
pid/sem-id counters, `current`, the scheduler loop's round-robin index and the
bump allocator. -/
structure KState where
  procs : Fin MAX_PROCS → Process
  sems : Fin MAX_SEMS → Semaphore
  next_pid : Int
  next_sem_id : Int
  current : Int
  start_idx : Nat
  heap : Heap

def initProcess : Process :=
  { pid := 0, name := none, entry := none, stack := none, stack_top := none,
    stack_size := 0, state := .FREE, blocked_sem_id := -1, next_blocked := none }

def initSem : Semaphore :=
  { id := 0, value := 0, owner_pid := 0, blocked_list := [], in_use := false }

/-- scheduler.cpp `scheduler_init`: every slot FREE, semaphore table cleared,
counters restarted at 1, no current process. -/
def scheduler_init (h : Heap) : KState :=
  { procs := fun _ => initProcess, sems := fun _ => initSem,
    next_pid := 1, next_sem_id := 1, current := -1, start_idx := 0, heap := h }

def KState.setProc (s : KState) (i : Fin MAX_PROCS) (p : Process) : KState :=
  { s with procs := Function.update s.procs i p }

def KState.setSem (s : KState) (k : Fin MAX_SEMS) (m : Semaphore) : KState :=
  { s with sems := Function.update s.sems k m }

/-- scheduler.cpp `pid_to_proc`: `nullptr` for non-positive pids, else the
first table slot whose `pid` field matches. -/
def pid_to_proc (s : KState) (pid : Int) : Option (Fin MAX_PROCS) :=
  if pid ≤ 0 then none
  else (List.finRange MAX_PROCS).find? (fun i => decide ((s.procs i).pid = pid))

/-- scheduler.cpp `find_free_slot`: first slot in state FREE. -/
def find_free_slot (s : KState) : Option (Fin MAX_PROCS) :=
  (List.finRange MAX_PROCS).find? (fun i => decide ((s.procs i).state = .FREE))

/-- scheduler.cpp `find_free_sem_slot`: first semaphore slot not in use. -/
def find_free_sem_slot (s : KState) : Option (Fin MAX_SEMS) :=
  (List.finRange MAX_SEMS).find? (fun k => decide ((s.sems k).in_use = false))

/-- scheduler.cpp `find_next_ready`: scan `MAX_PROCS` slots starting at
`start`, wrapping around, for the first slot in state READY or RUNNING. -/
def find_next_ready (s : KState) (start : Nat) : Option (Fin MAX_PROCS) :=
  ((List.range MAX_PROCS).map
      (fun off => (⟨(start + off) % MAX_PROCS, Nat.mod_lt _ (by decide)⟩ : Fin MAX_PROCS))).find?
    (fun i => decide ((s.procs i).state = .READY ∨ (s.procs i).state = .RUNNING))

/-- scheduler.cpp `terminate_process`: mark the slot with this pid ZOMBIE;
no-op when the pid is unknown. -/
def terminate_process (s : KState) (pid : Int) : KState :=
  match pid_to_proc s pid with
  | none => s
  | some i => s.setProc i { s.procs i with state := .ZOMBIE }

/-- scheduler.cpp `scheduler_process_return`: restore the kernel stack,
reclaim the previously-current PCB when it is ZOMBIE (wiping every field),
then clear `current`. -/
def scheduler_process_return (s : KState) : KState :=
  match pid_to_proc s s.current with
  | some i =>
      if (s.procs i).state = ProcState.ZOMBIE then
        { s.setProc i
            { pid := 0, name := none, entry := none, stack := none,
              stack_top := none, stack_size := 0, state := .FREE,
              blocked_sem_id := -1, next_blocked := none } with current := -1 }
      else { s with current := -1 }
  | none => { s with current := -1 }

/-- scheduler.cpp `create_process`: claim the first FREE slot, allocate the
stack, align the stack top down to 16 bytes, copy the name truncated at 15
characters, set state READY and hand out the next pid. -/
def create_process (s : KState) (entry : Nat) (name : Option String)
    (stack_size : Nat) : KState × Int :=
  match find_free_slot s with
  | none => (s, -1)
  | some i =>
      match kmalloc s.heap stack_size with
      | (h', none) => ({ s with heap := h' }, -1)
      | (h', some stk) =>
          ({ s with
              heap := h',
              procs := Function.update s.procs i
                { pid := s.next_pid,
                  name := some (String.mk ((name.getD "proc").data.take 15)),
                  entry := some entry,
                  stack := some stk,
                  stack_top := some ((stk + stack_size) - (stk + stack_size) % 16),
                  stack_size := stack_size,
                  state := .READY,
                  blocked_sem_id := -1,
                  next_blocked := none },
              next_pid := s.next_pid + 1 }, s.next_pid)

/-- scheduler.cpp `run_process`: refuse a null entry, else record the pid in
`current` and mark the slot RUNNING (the task's entry is then executed). -/
def run_process (s : KState) (i : Fin MAX_PROCS) : KState :=
  if (s.procs i).entry = none then s
  else
    KState.setProc { s with current := (s.procs i).pid } i
      { s.procs i with state := .RUNNING }

/-- scheduler.cpp `scheduler_run_pid`: look the pid up and call `run_process`
on it directly, with no guard on `current`.  The shell's `run` command
(shell.cpp `cmd_run`) calls this from the RUNNING shell task, nesting a
dispatch inside the current one: the started task becomes RUNNING while the
shell's PCB is still RUNNING. -/
def scheduler_run_pid (s : KState) (pid : Int) : KState × Int :=
  match pid_to_proc s pid with
  | none => (s, -1)
  | some i => (run_process s i, 0)

/-- scheduler.cpp `sem_get`: first in-use semaphore slot with this id. -/
def sem_get (s : KState) (id : Int) : Option (Fin MAX_SEMS) :=
  (List.finRange MAX_SEMS).find?
    (fun k => decide ((s.sems k).id = id ∧ (s.sems k).in_use = true))

/-- scheduler.cpp `sem_create`: claim a free slot, issue the next id, store
the initial value and the creating pid, empty wait list. -/
def sem_create (s : KState) (initial : Int) : KState × Int :=
  match find_free_sem_slot s with
  | none => (s, -1)
  | some k =>
      ({ s with
          sems := Function.update s.sems k
            { id := s.next_sem_id, value := initial, owner_pid := s.current,
              blocked_list := [], in_use := true },
          next_sem_id := s.next_sem_id + 1 }, s.next_sem_id)

/-- scheduler.cpp `sem_wait`: decrement the count; when the post-decrement
count is negative, mark the current process BLOCKED_SEM and push it at the
head of the wait list, then jump back to the kernel (the returned flag records
that control was transferred instead of returning to the caller). -/
def sem_wait (s : KState) (id : Int) : KState × Bool :=
  match sem_get s id with
  | none => (s, false)
  | some k =>
      if (s.sems k).value - 1 < 0 then
        match pid_to_proc s s.current with
        | some j =>
            ((s.setSem k
                { s.sems k with
                  value := (s.sems k).value - 1
                  blocked_list := j :: (s.sems k).blocked_list }).setProc j
              { s.procs j with
                state := .BLOCKED_SEM
                blocked_sem_id := id
                next_blocked := (s.sems k).blocked_list.head? }, true)
        | none => (s.setSem k { s.sems k with value := (s.sems k).value - 1 }, true)
      else (s.setSem k { s.sems k with value := (s.sems k).value - 1 }, false)

/-- scheduler.cpp `sem_signal`: increment the count; when the new count is
still non-positive and the wait list is non-empty, pop the head and make it
READY. -/
def sem_signal (s : KState) (id : Int) : KState :=
  match sem_get s id with
  | none => s
  | some k =>
      if (s.sems k).value + 1 ≤ 0 then
        match (s.sems k).blocked_list with
        | [] => s.setSem k { s.sems k with value := (s.sems k).value + 1 }
        | j :: rest =>
            (s.setSem k
                { s.sems k with
                  value := (s.sems k).value + 1
                  blocked_list := rest }).setProc j
              { s.procs j with
                next_blocked := none
                state := .READY
                blocked_sem_id := -1 }
      else s.setSem k { s.sems k with value := (s.sems k).value + 1 }

/-- scheduler.cpp `sem_destroy`: find the in-use slot with this id, clear it
and report success; report failure when no such slot exists. -/
def sem_destroy (s : KState) (id : Int) : KState × Bool :=
  match sem_get s id with
  | none => (s, false)
  | some k =>
      (s.setSem k
        { s.sems k with
          in_use := false
          id := 0
          value := 0
          blocked_list := [] }, true)

/-- Where control goes when the trap handler returns (trap.cpp): back to the
task at a given `mepc`, or into the scheduler's return hook (the handler wrote
`kernel_resume_pc` into `mepc`). -/
inductive TrapDest where
  | task (mepc : Nat)
  | hook
deriving DecidableEq

/-- The observable outcome of one `trap_handler` run for an environment call:
the new kernel state, where control resumes, the value placed in a0 (when
any), and whether the unknown-syscall diagnostic was printed. -/
structure TrapResult where
  st : KState
  dest : TrapDest
  a0_out : Option Int
  unknown_diag : Bool

/-- The state change of the SYSCALL_EXIT branch of trap.cpp: terminate the
current process when `current > 0` (the handler then returns into the
scheduler's return hook). -/
def exit_update (s : KState) : KState :=
  if 0 < s.current then terminate_process s s.current else s

/-- The state change of the SYSCALL_YIELD branch of trap.cpp: mark the current
process READY when it is RUNNING (the handler then returns into the
scheduler's return hook). -/
def yield_update (s : KState) : KState :=
  match pid_to_proc s s.current with
  | some j =>
      if (s.procs j).state = .RUNNING then
        s.setProc j { s.procs j with state := .READY }
      else s
  | none => s

/-- The SYSCALL_SEM_WAIT branch of trap.cpp: when `sem_wait` blocked, control
was redirected into the return hook; otherwise a0 is set to 0 and the task is
resumed after the ecall. -/
def sem_wait_trap (s : KState) (mepc : Nat) (a0 : Int) : TrapResult :=
  match sem_wait s a0 with
  | (s', true) => ⟨s', .hook, none, false⟩
  | (s', false) => ⟨s', .task (mepc + 4), some 0, false⟩

/-- trap.cpp `trap_handler`, the `mcause == 11` (environment call) branch,
dispatching on the syscall id in a7 with argument a0. -/
def trap_handler (s : KState) (mepc : Nat) (a7 : Nat) (a0 : Int) : TrapResult :=
  if a7 = SYSCALL_EXIT then
    ⟨exit_update s, .hook, none, false⟩
  else if a7 = SYSCALL_YIELD then
    ⟨yield_update s, .hook, none, false⟩
  else if a7 = SYSCALL_SEM_CREATE then
    ⟨(sem_create s a0).1, .task (mepc + 4), some (sem_create s a0).2, false⟩
  else if a7 = SYSCALL_SEM_WAIT then
    sem_wait_trap s mepc a0
  else if a7 = SYSCALL_SEM_SIGNAL then
    ⟨sem_signal s a0, .task (mepc + 4), some 0, false⟩
  else if a7 = SYSCALL_SEM_DESTROY then
    ⟨(sem_destroy s a0).1, .task (mepc + 4),
      some (if (sem_destroy s a0).2 then 0 else -1), false⟩
  else
    ⟨s, .hook, none, true⟩

/-- The kernel-visible transitions: process creation (`create_process`, used
by the scheduler bootstrap and by the shell), one pass of the scheduler loop
(`find_next_ready` then `run_process`), a direct dispatch through
`scheduler_run_pid` (the shell's `run` command does this while itself
RUNNING), an environment call by the executing task, and the executing task's
entry returning normally (which re-enters the return hook). -/
inductive Event where
  | create (entry : Nat) (name : Option String) (stack_size : Nat)
  | dispatch
  | run_pid (pid : Int)
  | syscall (id : Nat) (a0 : Int)
  | entry_return

/-- One atomic kernel transition.  A syscall whose handler redirects control
to `kernel_resume_pc` is immediately followed by `scheduler_process_return`,
exactly as the saved-context jump in the code does. -/
def step (s : KState) : Event → KState
  | .create e n sz => (create_process s e n sz).1
  | .dispatch =>
      if s.current = -1 then
        match find_next_ready s s.start_idx with
        | none => s
        | some i => run_process { s with start_idx := (i.val + 1) % MAX_PROCS } i
      else s
  | .run_pid pid => (scheduler_run_pid s pid).1
  | .syscall id a0 =>
      if s.current = -1 then s
      else
        match trap_handler s 0 id a0 with
        | ⟨s', .task _, _, _⟩ => s'
        | ⟨s', .hook, _, _⟩ => scheduler_process_return s'
  | .entry_return =>
      if s.current = -1 then s else scheduler_process_return s

def steps (s : KState) (es : List Event) : KState := es.foldl step s

/-- Transitions in which the executing task suspends only through a known
syscall id, never returns normally from its entry, and never performs a
nested dispatch through `scheduler_run_pid` (each of the excluded paths
produces a second RUNNING PCB, see the counterexample to C1). -/
def GoodEvent : Event → Prop
  | .syscall id _ => id ∈ knownSyscalls
  | .entry_return => False
  | .run_pid _ => False
  | _ => True

/-- States reachable from `scheduler_init` through good transitions. -/
inductive ReachableGood : KState → Prop where
  | base (h : Heap) : ReachableGood (scheduler_init h)
  | next (s : KState) (e : Event) (hs : ReachableGood s) (hg : GoodEvent e) :
      ReachableGood (step s e)

/-! ## The filesystem of fat.cpp -/

abbrev MAX_NAME_LEN : Nat := 16
abbrev MAX_FILES : Nat := 64
abbrev MAX_DIRS : Nat := 16
abbrev MAX_FILE_SIZE : Nat := 16384

/-- A `Directory*`: either the singleton root member of the `FAT` object or an
entry of the directory pool. -/
inductive DirRef where
  | root
  | pool (i : Fin MAX_DIRS)
deriving DecidableEq

/-- A pool file (fat.h `File`).  The 16-KiB data buffer is modelled as a total
function from byte index to byte value; the pool is a global object, so the
buffer starts zero-initialized. -/
structure FFile where
  name : String
  data : Nat → Nat
  size : Nat
  used : Bool

/-- A directory (fat.h `Directory`).  The child arrays with their counts are
modelled as lists whose lengths are the counts. -/
structure Directory where
  name : String
  parent : Option DirRef
  subdirs : List DirRef
  files : List (Fin MAX_FILES)
  used : Bool

/-- The `FAT` object: root directory plus the two static pools. -/
structure FATState where
  root : Directory
  dir_pool : Fin MAX_DIRS → Directory
  file_pool : Fin MAX_FILES → FFile

def FATState.getDir (s : FATState) : DirRef → Directory
  | .root => s.root
  | .pool i => s.dir_pool i

def FATState.setDir (s : FATState) (r : DirRef) (d : Directory) : FATState :=
  match r with
  | .root => { s with root := d }
  | .pool i => { s with dir_pool := Function.update s.dir_pool i d }

def initDir : Directory :=
  { name := "", parent := none, subdirs := [], files := [], used := false }

def initFile : FFile :=
  { name := "", data := fun _ => 0, size := 0, used := false }

/-- The `FAT` constructor: all pool objects free, root named "/" with null
parent and zero counts, in use. -/
def fat0 : FATState :=
  { root := { name := "/", parent := none, subdirs := [], files := [], used := true },
    dir_pool := fun _ => initDir,
    file_pool := fun _ => initFile }

/-- fat.cpp `is_name_invalid`: reject a null/empty name, any name containing
'/', and any name that is only spaces.  (There is no length check.) -/
def is_name_invalid (name : String) : Bool :=
  if name.data = [] then true
  else if name.data.any (fun c => c = '/') then true
  else name.data.all (fun c => c = ' ')

/-- fat.cpp `FAT::find_subdir`: first child whose name matches. -/
def FAT.find_subdir (s : FATState) (d : DirRef) (name : String) : Option DirRef :=
  (s.getDir d).subdirs.find? (fun r => decide ((s.getDir r).name = name))

/-- fat.cpp `FAT::find_file`: first file entry whose name matches. -/
def FAT.find_file (s : FATState) (d : DirRef) (name : String) : Option (Fin MAX_FILES) :=
  (s.getDir d).files.find? (fun fi => decide ((s.file_pool fi).name = name))

/-- fat.cpp `FAT::mkdir`: reject an invalid name, a full parent, or a
duplicate; otherwise claim the first free pool directory, initialize it and
append it to the parent's child array. -/
def FAT.mkdir (s : FATState) (d : DirRef) (name : String) : FATState × Option DirRef :=
  if is_name_invalid name then (s, none)
  else if MAX_DIRS ≤ (s.getDir d).subdirs.length then (s, none)
  else if (FAT.find_subdir s d name).isSome then (s, none)
  else
    match (List.finRange MAX_DIRS).find? (fun i => decide ((s.dir_pool i).used = false)) with
    | none => (s, none)
    | some i =>
        let s1 := { s with
          dir_pool := Function.update s.dir_pool i
            { name := name, parent := some d, subdirs := [], files := [], used := true } }
        (s1.setDir d { s1.getDir d with subdirs := (s1.getDir d).subdirs ++ [.pool i] },
         some (.pool i))

/-- Splitting a path on '/' exactly as the segment loop of
`FAT::mkdir_recursive` walks it: like `String.splitOn "/"` on the character
list. -/
def splitSegs : List Char → List (List Char)
  | [] => [[]]
  | c :: rest =>
      if c = '/' then [] :: splitSegs rest
      else
        match splitSegs rest with
        | s :: ss => (c :: s) :: ss
        | [] => [[c]]

/-- The segment loop of `FAT::mkdir_recursive` stops when `seg_start` reaches
the terminator, so a single trailing '/' contributes no (empty) segment. -/
def pathSegs (path : String) : List (List Char) :=
  let segs := splitSegs path.data
  if segs.getLast? = some [] then segs.dropLast else segs

/-- The per-segment walk of fat.cpp `FAT::mkdir_recursive`: reject an empty or
over-long segment, walk into an existing subdirectory or create it, and stop
with the state already mutated by the earlier segments when a later segment
fails. -/
def FAT.mkdirSegs (s : FATState) (cur : DirRef) : List (List Char) → FATState × Option DirRef
  | [] => (s, some cur)
  | seg :: rest =>
      if seg.length = 0 ∨ MAX_NAME_LEN ≤ seg.length then (s, none)
      else
        match FAT.find_subdir s cur (String.mk seg) with
        | some nxt => FAT.mkdirSegs s nxt rest
        | none =>
            match FAT.mkdir s cur (String.mk seg) with
            | (s', some nd) => FAT.mkdirSegs s' nd rest
            | (s', none) => (s', none)

/-- fat.cpp `FAT::mkdir_recursive`. -/
def FAT.mkdir_recursive (s : FATState) (start : DirRef) (path : String) :
    FATState × Option DirRef :=
  if path.data = [] then (s, none)
  else FAT.mkdirSegs s start (pathSegs path)

/-- fat.cpp `FAT::rmdir`: find the first child with this name; refuse when it
still has subdirectories or files; else mark it free and compact the parent's
child array preserving order. -/
def FAT.rmdir (s : FATState) (d : DirRef) (name : String) : FATState × Bool :=
  match (s.getDir d).subdirs.findIdx? (fun r => decide ((s.getDir r).name = name)) with
  | none => (s, false)
  | some i =>
      let sub := (s.getDir d).subdirs.getD i .root
      if 0 < (s.getDir sub).subdirs.length ∨ 0 < (s.getDir sub).files.length then
        (s, false)
      else
        let s1 := s.setDir sub { s.getDir sub with used := false }
        (s1.setDir d { s1.getDir d with subdirs := (s1.getDir d).subdirs.eraseIdx i },
         true)

/-- fat.cpp `FAT::touch`: same rejections as `mkdir`; claim the first free
pool file, set its name, size 0 and used flag, and append it to the parent's
file array. -/
def FAT.touch (s : FATState) (d : DirRef) (name : String) :
    FATState × Option (Fin MAX_FILES) :=
  if is_name_invalid name then (s, none)
  else if MAX_FILES ≤ (s.getDir d).files.length then (s, none)
  else if (FAT.find_file s d name).isSome then (s, none)
  else
    match (List.finRange MAX_FILES).find? (fun i => decide ((s.file_pool i).used = false)) with
    | none => (s, none)
    | some i =>
        let s1 := { s with
          file_pool := Function.update s.file_pool i
            { s.file_pool i with used := true, name := name, size := 0 } }
        (s1.setDir d { s1.getDir d with files := (s1.getDir d).files ++ [i] }, some i)

/-- fat.cpp `FAT::rm`: find the first file entry with this name, clear the
pool file's used flag and compact the parent's file array. -/
def FAT.rm (s : FATState) (d : DirRef) (name : String) : FATState × Bool :=
  match (s.getDir d).files.findIdx? (fun fi => decide ((s.file_pool fi).name = name)) with
  | none => (s, false)
  | some i =>
      let fi := (s.getDir d).files.getD i 0
      let s1 := { s with
        file_pool := Function.update s.file_pool fi { s.file_pool fi with used := false } }
      (s1.setDir d { s1.getDir d with files := (s1.getDir d).files.eraseIdx i }, true)

/-- fat.cpp `FAT::mv`: fail when the file is missing or the destination is
full; otherwise `rm` it from the source (which also clears its used flag) and
append the same pool reference to the destination's file array. -/
def FAT.mv (s : FATState) (src : DirRef) (name : String) (dst : DirRef) :
    FATState × Bool :=
  match FAT.find_file s src name with
  | none => (s, false)
  | some f =>
      if MAX_FILES ≤ (s.getDir dst).files.length then (s, false)
      else
        let s1 := (FAT.rm s src name).1
        (s1.setDir dst { s1.getDir dst with files := (s1.getDir dst).files ++ [f] }, true)

/-- shell.cpp `cmd_edit` (overwrite mode) on an existing file: store the given
bytes (truncated at `MAX_FILE_SIZE`), set the size and the used flag. -/
def cmd_edit (s : FATState) (d : DirRef) (name : String) (bytes : List Nat) : FATState :=
  match FAT.find_file s d name with
  | none => s
  | some fi =>
      { s with
        file_pool := Function.update s.file_pool fi
          { s.file_pool fi with
            data := fun i =>
              if i < min bytes.length MAX_FILE_SIZE then bytes.getD i 0
              else (s.file_pool fi).data i
            size := min bytes.length MAX_FILE_SIZE
            used := true } }

/-- The bytes shell.cpp `cmd_cat` sends to the console for an existing file:
the loop runs `for (i = 0; i <= size; i++)`, so it emits the bytes at indices
`0 .. size` inclusive, then one newline (byte 10). -/
def cmd_cat_out (s : FATState) (d : DirRef) (name : String) : Option (List Nat) :=
  match FAT.find_file s d name with
  | none => none
  | some fi =>
      some (((List.range ((s.file_pool fi).size + 1)).map (s.file_pool fi).data) ++ [10])

/-! ## Concrete states used by the examples -/

/-- A heap with plenty of headroom for the example traces. -/
def heap0 : Heap := ⟨0, 1000000⟩

def init0 : KState := scheduler_init heap0

/-- One task created and dispatched: slot 0 is RUNNING with pid 1. -/
def sA : KState := steps init0 [.create 1 none 4096, .dispatch]

/-- The fresh filesystem after `touch(root, "f")`. -/
def s_f : FATState := (FAT.touch fat0 .root "f").1

/-- ... after additionally `mkdir(root, "d")` (pool directory 0). -/
def s_fd : FATState := (FAT.mkdir s_f .root "d").1

/-- ... and the state after `touch(root, "f")` then `edit(root, "f", "hi")`. -/
def s_hi : FATState := cmd_edit s_f .root "f" [104, 105]

/-! ## Invariants -/

/-- At most one PCB of the process table is in state RUNNING. -/
def atMostOneRunning (s : KState) : Prop :=
  ∀ i j : Fin MAX_PROCS, (s.procs i).state = .RUNNING →
    (s.procs j).state = .RUNNING → i = j

/-- The semaphore invariant exactly as the specification states it: for every
in-use semaphore, a non-negative count means an empty wait list, and a
negative count means the wait list holds exactly `-count` PCBs, each in state
BLOCKED_SEM with a matching `blocked_sem_id`. -/
def SemInvariant (s : KState) : Prop :=
  ∀ k : Fin MAX_SEMS, (s.sems k).in_use = true →
    (0 ≤ (s.sems k).value → (s.sems k).blocked_list = []) ∧
    ((s.sems k).value < 0 →
      (s.sems k).blocked_list.length = (-(s.sems k).value).toNat ∧
      ∀ i ∈ (s.sems k).blocked_list,
        (s.procs i).state = .BLOCKED_SEM ∧
        (s.procs i).blocked_sem_id = (s.sems k).id)

/-- Well-formedness of the semaphore tables, strengthening `SemInvariant`
into an inductive property: wait-list members are BLOCKED_SEM with the
matching id on an in-use semaphore, appear on at most one list and at most
once, and list lengths match the negative part of the count. -/
structure SemWF (s : KState) : Prop where
  blocked_state : ∀ k, ∀ i ∈ (s.sems k).blocked_list,
    (s.procs i).state = .BLOCKED_SEM
  blocked_id : ∀ k, ∀ i ∈ (s.sems k).blocked_list,
    (s.sems k).in_use = true ∧ (s.procs i).blocked_sem_id = (s.sems k).id
  blocked_once : ∀ k k', ∀ i ∈ (s.sems k).blocked_list,
    i ∈ (s.sems k').blocked_list → k = k'
  blocked_nodup : ∀ k, (s.sems k).blocked_list.Nodup
  sem_count : ∀ k, (s.sems k).in_use = true →
    (0 ≤ (s.sems k).value → (s.sems k).blocked_list = []) ∧
    ((s.sems k).value < 0 →
      (s.sems k).blocked_list.length = (-(s.sems k).value).toNat)

/-- The `current`-independent part of the kernel invariant: pid hygiene (FREE
slots hold pid 0, live pids are positive, below `next_pid` and pairwise
distinct), and enough wait-list hygiene to track process states across
blocking and waking. -/
structure CoreInv (s : KState) : Prop where
  free_pid : ∀ i, (s.procs i).state = .FREE → (s.procs i).pid = 0
  live_pid : ∀ i, (s.procs i).state ≠ .FREE →
    0 < (s.procs i).pid ∧ (s.procs i).pid < s.next_pid
  pid_inj : ∀ i j, (s.procs i).state ≠ .FREE → (s.procs j).state ≠ .FREE →
    (s.procs i).pid = (s.procs j).pid → i = j
  blocked_state : ∀ k, ∀ i ∈ (s.sems k).blocked_list,
    (s.procs i).state = .BLOCKED_SEM
  blocked_once : ∀ k k', ∀ i ∈ (s.sems k).blocked_list,
    i ∈ (s.sems k').blocked_list → k = k'
  blocked_nodup : ∀ k, (s.sems k).blocked_list.Nodup
  next_pid_pos : 0 < s.next_pid

/-- The inductive kernel invariant maintained by the good transitions:
`CoreInv` together with the bookkeeping of RUNNING slots against `current`. -/
structure Inv (s : KState) : Prop where
  core : CoreInv s
  run_of_none : s.current = -1 → ∀ i, (s.procs i).state ≠ .RUNNING
  cur_pos : s.current ≠ -1 → 0 < s.current
  run_pid : ∀ i, (s.procs i).state = .RUNNING → (s.procs i).pid = s.current
  cur_not_blocked : s.current ≠ -1 → ∀ i, (s.procs i).pid = s.current →
    (s.procs i).state ≠ .BLOCKED_SEM

theorem SemWF.semInvariant {s : KState} (h : SemWF s) : SemInvariant s := by
  intro k hk
  refine ⟨(h.sem_count k hk).1, fun hv => ⟨(h.sem_count k hk).2 hv, fun i hi => ?_⟩⟩
  exact ⟨h.blocked_state k i hi, (h.blocked_id k i hi).2⟩

theorem Inv.atMostOne {s : KState} (h : Inv s) : atMostOneRunning s := by
  intro i j hi hj
  refine h.core.pid_inj i j (by simp [hi]) (by simp [hj]) ?_
  rw [h.run_pid i hi, h.run_pid j hj]

/-! ## Basic lemmas about the table scans and state updates -/

@[simp] theorem setProc_procs (s : KState) (i : Fin MAX_PROCS) (p : Process)
    (j : Fin MAX_PROCS) :
    (s.setProc i p).procs j = if j = i then p else s.procs j := by
  simp [KState.setProc, Function.update_apply]

@[simp] theorem setProc_sems (s : KState) (i : Fin MAX_PROCS) (p : Process) :
    (s.setProc i p).sems = s.sems := rfl

@[simp] theorem setProc_current (s : KState) (i : Fin MAX_PROCS) (p : Process) :
    (s.setProc i p).current = s.current := rfl

@[simp] theorem setProc_next_pid (s : KState) (i : Fin MAX_PROCS) (p : Process) :
    (s.setProc i p).next_pid = s.next_pid := rfl

@[simp] theorem setSem_sems (s : KState) (k : Fin MAX_SEMS) (m : Semaphore)
    (k' : Fin MAX_SEMS) :
    (s.setSem k m).sems k' = if k' = k then m else s.sems k' := by
  simp [KState.setSem, Function.update_apply]

@[simp] theorem setSem_procs (s : KState) (k : Fin MAX_SEMS) (m : Semaphore) :
    (s.setSem k m).procs = s.procs := rfl

@[simp] theorem setSem_current (s : KState) (k : Fin MAX_SEMS) (m : Semaphore) :
    (s.setSem k m).current = s.current := rfl

@[simp] theorem setSem_next_pid (s : KState) (k : Fin MAX_SEMS) (m : Semaphore) :
    (s.setSem k m).next_pid = s.next_pid := rfl

theorem find?_congr {α : Type} {l : List α} {p q : α → Bool}
    (h : ∀ a ∈ l, p a = q a) : l.find? p = l.find? q := by
  induction l with
  | nil => rfl
  | cons a t ih =>
      cases hpa : p a with
      | true =>
          rw [List.find?_cons_of_pos _ hpa,
            List.find?_cons_of_pos _ (by rw [← h a (by simp)]; exact hpa)]
      | false =>
          rw [List.find?_cons_of_neg _ (by simp [hpa]),
            List.find?_cons_of_neg _ (by rw [← h a (by simp)]; simp [hpa])]
          exact ih fun x hx => h x (by simp [hx])

theorem pid_to_proc_some {s : KState} {pid : Int} {i : Fin MAX_PROCS}
    (h : pid_to_proc s pid = some i) : (s.procs i).pid = pid ∧ 0 < pid := by
  unfold pid_to_proc at h
  split at h
  · exact absurd h (by simp)
  · next hle =>
      have hp := List.find?_some h
      simp only [decide_eq_true_eq] at hp
      exact ⟨hp, by omega⟩

theorem pid_to_proc_none {s : KState} {pid : Int}
    (h : pid_to_proc s pid = none) (hpos : 0 < pid) :
    ∀ i, (s.procs i).pid ≠ pid := by
  intro i
  unfold pid_to_proc at h
  rw [if_neg (by omega)] at h
  have := List.find?_eq_none.mp h i (List.mem_finRange i)
  simpa using this

theorem pid_to_proc_congr {s s' : KState} (pid : Int)
    (h : ∀ i, (s'.procs i).pid = (s.procs i).pid) :
    pid_to_proc s' pid = pid_to_proc s pid := by
  by_cases hp : pid ≤ 0
  · simp [pid_to_proc, hp]
  · simp only [pid_to_proc, if_neg hp]
    exact find?_congr fun a _ => by rw [h a]

theorem find_free_slot_some {s : KState} {i : Fin MAX_PROCS}
    (h : find_free_slot s = some i) : (s.procs i).state = .FREE := by
  have := List.find?_some h
  simpa using this

theorem find_free_sem_slot_some {s : KState} {k : Fin MAX_SEMS}
    (h : find_free_sem_slot s = some k) : (s.sems k).in_use = false := by
  have := List.find?_some h
  simpa using this

theorem find_next_ready_some {s : KState} {start : Nat} {i : Fin MAX_PROCS}
    (h : find_next_ready s start = some i) :
    (s.procs i).state = .READY ∨ (s.procs i).state = .RUNNING := by
  have := List.find?_some h
  simpa using this

theorem sem_get_some {s : KState} {id : Int} {k : Fin MAX_SEMS}
    (h : sem_get s id = some k) :
    (s.sems k).id = id ∧ (s.sems k).in_use = true := by
  have := List.find?_some h
  simpa using this

theorem sem_get_none {s : KState} {id : Int} (h : sem_get s id = none) :
    ∀ k, ¬((s.sems k).id = id ∧ (s.sems k).in_use = true) := by
  intro k
  have := List.find?_eq_none.mp h k (List.mem_finRange k)
  simpa using this

@[simp] theorem pid_to_proc_setSem (s : KState) (k : Fin MAX_SEMS)
    (m : Semaphore) (pid : Int) :
    pid_to_proc (s.setSem k m) pid = pid_to_proc s pid := rfl

/-! ## Preservation of semaphore well-formedness by the semaphore operations -/

theorem sem_create_semWF {s : KState} (h : SemWF s) {v : Int} (hv : 0 ≤ v) :
    SemWF (sem_create s v).1 := by
  unfold sem_create
  cases hf : find_free_sem_slot s with
  | none => exact h
  | some k =>
      constructor
      · intro k' i hi
        simp only [Function.update_apply] at hi
        by_cases hk' : k' = k
        · simp [hk'] at hi
        · rw [if_neg hk'] at hi
          exact h.blocked_state k' i hi
      · intro k' i hi
        simp only [Function.update_apply] at hi ⊢
        by_cases hk' : k' = k
        · simp [hk'] at hi
        · rw [if_neg hk'] at hi
          simp only [if_neg hk']
          exact h.blocked_id k' i hi
      · intro k1 k2 i h1 h2
        simp only [Function.update_apply] at h1 h2
        by_cases hk1 : k1 = k
        · simp [hk1] at h1
        · by_cases hk2 : k2 = k
          · simp [hk2] at h2
          · rw [if_neg hk1] at h1
            rw [if_neg hk2] at h2
            exact h.blocked_once k1 k2 i h1 h2
      · intro k'
        simp only [Function.update_apply]
        by_cases hk' : k' = k
        · simp [hk']
        · rw [if_neg hk']
          exact h.blocked_nodup k'
      · intro k' hk'
        simp only [Function.update_apply] at hk' ⊢
        by_cases hkk : k' = k
        · simp only [if_pos hkk] at hk' ⊢
          exact ⟨fun _ => by trivial, fun hlt => absurd hlt (by omega)⟩
        · simp only [if_neg hkk] at hk' ⊢
          exact h.sem_count k' hk'

theorem sem_destroy_semWF {s : KState} (h : SemWF s) (id : Int) :
    SemWF (sem_destroy s id).1 := by
  unfold sem_destroy
  cases hg : sem_get s id with
  | none => exact h
  | some k =>
      constructor
      · intro k' i hi
        simp only [setSem_sems] at hi
        by_cases hk' : k' = k
        · simp [hk'] at hi
        · rw [if_neg hk'] at hi
          exact h.blocked_state k' i hi
      · intro k' i hi
        simp only [setSem_sems] at hi ⊢
        by_cases hk' : k' = k
        · simp [hk'] at hi
        · rw [if_neg hk'] at hi
          simp only [if_neg hk']
          exact h.blocked_id k' i hi
      · intro k1 k2 i h1 h2
        simp only [setSem_sems] at h1 h2
        by_cases hk1 : k1 = k
        · simp [hk1] at h1
        · by_cases hk2 : k2 = k
          · simp [hk2] at h2
          · rw [if_neg hk1] at h1
            rw [if_neg hk2] at h2
            exact h.blocked_once k1 k2 i h1 h2
      · intro k'
        simp only [setSem_sems]
        by_cases hk' : k' = k
        · simp [hk']
        · rw [if_neg hk']
          exact h.blocked_nodup k'
      · intro k' hk'
        simp only [setSem_sems] at hk' ⊢
        by_cases hkk : k' = k
        · simp [hkk] at hk'
        · simp only [if_neg hkk] at hk' ⊢
          exact h.sem_count k' hk'

theorem sem_signal_semWF {s : KState} (h : SemWF s) (id : Int) :
    SemWF (sem_signal s id) := by
  unfold sem_signal
  cases hg : sem_get s id with
  | none => exact h
  | some k =>
      have hk := sem_get_some hg
      dsimp only
      split_ifs with hv
      · cases hl : (s.sems k).blocked_list with
        | nil =>
            exfalso
            rcases h.sem_count k hk.2 with ⟨hpos, hneg⟩
            by_cases h0 : 0 ≤ (s.sems k).value
            · omega
            · have hlen := hneg (by omega)
              rw [hl] at hlen
              simp at hlen
              omega
        | cons j rest =>
            have hnd := h.blocked_nodup k
            rw [hl] at hnd
            have hjrest : j ∉ rest := (List.nodup_cons.mp hnd).1
            have hrest_nd : rest.Nodup := (List.nodup_cons.mp hnd).2
            have hjmem : j ∈ (s.sems k).blocked_list := by
              rw [hl]; exact List.mem_cons_self j rest
            have hjelse : ∀ k', k' ≠ k → j ∉ (s.sems k').blocked_list := by
              intro k' hne hmem
              exact hne (h.blocked_once k' k j hmem hjmem)
            constructor
            · intro k' i hi
              simp only [setProc_sems, setSem_sems] at hi
              simp only [setProc_procs]
              by_cases hk' : k' = k
              · rw [if_pos hk'] at hi
                dsimp only at hi
                have hij : i ≠ j := fun he => hjrest (he ▸ hi)
                rw [if_neg hij]
                exact h.blocked_state k i (by rw [hl]; exact List.mem_cons_of_mem _ hi)
              · rw [if_neg hk'] at hi
                have hij : i ≠ j := fun he => hjelse k' hk' (he ▸ hi)
                rw [if_neg hij]
                exact h.blocked_state k' i hi
            · intro k' i hi
              simp only [setProc_sems, setSem_sems] at hi ⊢
              simp only [setProc_procs]
              by_cases hk' : k' = k
              · rw [if_pos hk'] at hi ⊢
                dsimp only at hi ⊢
                have hij : i ≠ j := fun he => hjrest (he ▸ hi)
                rw [if_neg hij]
                exact ⟨hk.2, (h.blocked_id k i (by rw [hl]; exact List.mem_cons_of_mem _ hi)).2⟩
              · rw [if_neg hk'] at hi ⊢
                have hij : i ≠ j := fun he => hjelse k' hk' (he ▸ hi)
                rw [if_neg hij]
                exact h.blocked_id k' i hi
            · intro k1 k2 i h1 h2
              simp only [setProc_sems, setSem_sems] at h1 h2
              by_cases hk1 : k1 = k <;> by_cases hk2 : k2 = k
              · rw [hk1, hk2]
              · rw [if_pos hk1] at h1
                rw [if_neg hk2] at h2
                dsimp only at h1
                have h1' : i ∈ (s.sems k).blocked_list := by
                  rw [hl]; exact List.mem_cons_of_mem _ h1
                rw [hk1]
                exact (h.blocked_once k2 k i h2 h1').symm
              · rw [if_neg hk1] at h1
                rw [if_pos hk2] at h2
                dsimp only at h2
                have h2' : i ∈ (s.sems k).blocked_list := by
                  rw [hl]; exact List.mem_cons_of_mem _ h2
                rw [hk2]
                exact h.blocked_once k1 k i h1 h2'
              · rw [if_neg hk1] at h1
                rw [if_neg hk2] at h2
                exact h.blocked_once k1 k2 i h1 h2
            · intro k'
              simp only [setProc_sems, setSem_sems]
              by_cases hk' : k' = k
              · rw [if_pos hk']
                exact hrest_nd
              · rw [if_neg hk']
                exact h.blocked_nodup k'
            · intro k' hk'
              simp only [setProc_sems, setSem_sems] at hk' ⊢
              by_cases hkk : k' = k
              · rw [if_pos hkk] at hk' ⊢
                dsimp only at hk' ⊢
                rcases h.sem_count k hk.2 with ⟨hpos, hneg⟩
                have hlen : rest.length + 1 = (-(s.sems k).value).toNat := by
                  have := hneg (by omega)
                  rw [hl] at this
                  simpa using this
                constructor
                · intro h0
                  have : rest.length = 0 := by omega
                  exact List.length_eq_zero.mp this
                · intro hneg'
                  omega
              · rw [if_neg hkk] at hk' ⊢
                exact h.sem_count k' hk'
      · constructor
        · intro k' i hi
          simp only [setSem_sems] at hi
          by_cases hk' : k' = k
          · rw [if_pos hk'] at hi
            dsimp only at hi
            exact h.blocked_state k i hi
          · rw [if_neg hk'] at hi
            exact h.blocked_state k' i hi
        · intro k' i hi
          simp only [setSem_sems] at hi ⊢
          by_cases hk' : k' = k
          · rw [if_pos hk'] at hi ⊢
            dsimp only at hi ⊢
            exact h.blocked_id k i hi
          · rw [if_neg hk'] at hi ⊢
            exact h.blocked_id k' i hi
        · intro k1 k2 i h1 h2
          simp only [setSem_sems] at h1 h2
          by_cases hk1 : k1 = k <;> by_cases hk2 : k2 = k
          · rw [hk1, hk2]
          · rw [if_pos hk1] at h1
            rw [if_neg hk2] at h2
            dsimp only at h1
            rw [hk1]
            exact (h.blocked_once k2 k i h2 h1).symm
          · rw [if_neg hk1] at h1
            rw [if_pos hk2] at h2
            dsimp only at h2
            rw [hk2]
            exact h.blocked_once k1 k i h1 h2
          · rw [if_neg hk1] at h1
            rw [if_neg hk2] at h2
            exact h.blocked_once k1 k2 i h1 h2
        · intro k'
          simp only [setSem_sems]
          by_cases hk' : k' = k
          · rw [if_pos hk']
            exact h.blocked_nodup k
          · rw [if_neg hk']
            exact h.blocked_nodup k'
        · intro k' hk'
          simp only [setSem_sems] at hk' ⊢
          by_cases hkk : k' = k
          · rw [if_pos hkk] at hk' ⊢
            dsimp only at hk' ⊢
            rcases h.sem_count k hk.2 with ⟨hpos, hneg⟩
            constructor
            · intro _
              exact hpos (by omega)
            · intro hneg'
              omega
          · rw [if_neg hkk] at hk' ⊢
            exact h.sem_count k' hk'

theorem sem_wait_semWF {s : KState} (h : SemWF s) {j : Fin MAX_PROCS}
    (hj : pid_to_proc s s.current = some j)
    (hrun : (s.procs j).state = .RUNNING) (id : Int) :
    SemWF (sem_wait s id).1 := by
  unfold sem_wait
  cases hg : sem_get s id with
  | none => exact h
  | some k =>
      have hk := sem_get_some hg
      dsimp only
      split_ifs with hv
      · rw [hj]
        have hjno : ∀ k', j ∉ (s.sems k').blocked_list := by
          intro k' hmem
          have hb := h.blocked_state k' j hmem
          rw [hrun] at hb
          simp at hb
        constructor
        · intro k' i hi
          simp only [setProc_sems, setSem_sems] at hi
          simp only [setProc_procs]
          by_cases hk' : k' = k
          · rw [if_pos hk'] at hi
            dsimp only at hi
            rcases List.mem_cons.mp hi with he | hi'
            · rw [if_pos he]
            · have hij : i ≠ j := fun heq => hjno k (heq ▸ hi')
              rw [if_neg hij]
              exact h.blocked_state k i hi'
          · rw [if_neg hk'] at hi
            have hij : i ≠ j := fun heq => hjno k' (heq ▸ hi)
            rw [if_neg hij]
            exact h.blocked_state k' i hi
        · intro k' i hi
          simp only [setProc_sems, setSem_sems] at hi ⊢
          simp only [setProc_procs]
          by_cases hk' : k' = k
          · rw [if_pos hk'] at hi ⊢
            dsimp only at hi ⊢
            rcases List.mem_cons.mp hi with he | hi'
            · rw [if_pos he]
              exact ⟨hk.2, hk.1.symm⟩
            · have hij : i ≠ j := fun heq => hjno k (heq ▸ hi')
              rw [if_neg hij]
              exact ⟨hk.2, (h.blocked_id k i hi').2⟩
          · rw [if_neg hk'] at hi ⊢
            have hij : i ≠ j := fun heq => hjno k' (heq ▸ hi)
            rw [if_neg hij]
            exact h.blocked_id k' i hi
        · intro k1 k2 i h1 h2
          simp only [setProc_sems, setSem_sems] at h1 h2
          by_cases hk1 : k1 = k <;> by_cases hk2 : k2 = k
          · rw [hk1, hk2]
          · rw [if_pos hk1] at h1
            rw [if_neg hk2] at h2
            dsimp only at h1
            rcases List.mem_cons.mp h1 with he | h1'
            · exact absurd h2 (he ▸ hjno k2)
            · rw [hk1]
              exact (h.blocked_once k2 k i h2 h1').symm
          · rw [if_neg hk1] at h1
            rw [if_pos hk2] at h2
            dsimp only at h2
            rcases List.mem_cons.mp h2 with he | h2'
            · exact absurd h1 (he ▸ hjno k1)
            · rw [hk2]
              exact h.blocked_once k1 k i h1 h2'
          · rw [if_neg hk1] at h1
            rw [if_neg hk2] at h2
            exact h.blocked_once k1 k2 i h1 h2
        · intro k'
          simp only [setProc_sems, setSem_sems]
          by_cases hk' : k' = k
          · rw [if_pos hk']
            dsimp only
            exact List.nodup_cons.mpr ⟨hjno k, h.blocked_nodup k⟩
          · rw [if_neg hk']
            exact h.blocked_nodup k'
        · intro k' hk'
          simp only [setProc_sems, setSem_sems] at hk' ⊢
          by_cases hkk : k' = k
          · rw [if_pos hkk] at hk' ⊢
            dsimp only at hk' ⊢
            rcases h.sem_count k hk.2 with ⟨hpos, hneg⟩
            constructor
            · intro h0
              exact absurd h0 (by omega)
            · intro _
              by_cases h0 : 0 ≤ (s.sems k).value
              · rw [hpos h0]
                simp
                omega
              · have := hneg (by omega)
                simp
                omega
          · rw [if_neg hkk] at hk' ⊢
            exact h.sem_count k' hk'
      · constructor
        · intro k' i hi
          simp only [setSem_sems] at hi
          by_cases hk' : k' = k
          · rw [if_pos hk'] at hi
            dsimp only at hi
            exact h.blocked_state k i hi
          · rw [if_neg hk'] at hi
            exact h.blocked_state k' i hi
        · intro k' i hi
          simp only [setSem_sems] at hi ⊢
          by_cases hk' : k' = k
          · rw [if_pos hk'] at hi ⊢
            dsimp only at hi ⊢
            exact h.blocked_id k i hi
          · rw [if_neg hk'] at hi ⊢
            exact h.blocked_id k' i hi
        · intro k1 k2 i h1 h2
          simp only [setSem_sems] at h1 h2
          by_cases hk1 : k1 = k <;> by_cases hk2 : k2 = k
          · rw [hk1, hk2]
          · rw [if_pos hk1] at h1
            rw [if_neg hk2] at h2
            dsimp only at h1
            rw [hk1]
            exact (h.blocked_once k2 k i h2 h1).symm
          · rw [if_neg hk1] at h1
            rw [if_pos hk2] at h2
            dsimp only at h2
            rw [hk2]
            exact h.blocked_once k1 k i h1 h2
          · rw [if_neg hk1] at h1
            rw [if_neg hk2] at h2
            exact h.blocked_once k1 k2 i h1 h2
        · intro k'
          simp only [setSem_sems]
          by_cases hk' : k' = k
          · rw [if_pos hk']
            exact h.blocked_nodup k
          · rw [if_neg hk']
            exact h.blocked_nodup k'
        · intro k' hk'
          simp only [setSem_sems] at hk' ⊢
          by_cases hkk : k' = k
          · rw [if_pos hkk] at hk' ⊢
            dsimp only at hk' ⊢
            rcases h.sem_count k hk.2 with ⟨hpos, hneg⟩
            constructor
            · intro _
              exact hpos (by omega)
            · intro hneg'
              omega
          · rw [if_neg hkk] at hk' ⊢
            exact h.sem_count k' hk'

/-! ## Preservation of the kernel invariant by the good transitions -/

theorem hook_inv {s : KState} (hc : CoreInv s)
    (hnr : ∀ i, (s.procs i).state ≠ .RUNNING) :
    Inv (scheduler_process_return s) := by
  unfold scheduler_process_return
  cases hp : pid_to_proc s s.current with
  | none =>
      exact ⟨⟨hc.free_pid, hc.live_pid, hc.pid_inj, hc.blocked_state,
          hc.blocked_once, hc.blocked_nodup, hc.next_pid_pos⟩,
        fun _ i => hnr i, fun hne => absurd rfl hne, fun i hi => absurd hi (hnr i),
        fun hne => absurd rfl hne⟩
  | some i0 =>
      dsimp only
      split_ifs with hz
      · constructor
        · constructor
          · intro j hj
            simp only [setProc_procs] at hj ⊢
            by_cases hji : j = i0
            · rw [if_pos hji]
            · rw [if_neg hji] at hj ⊢
              exact hc.free_pid j hj
          · intro j hj
            simp only [setProc_procs] at hj ⊢
            by_cases hji : j = i0
            · rw [if_pos hji] at hj
              simp at hj
            · rw [if_neg hji] at hj ⊢
              exact hc.live_pid j hj
          · intro j1 j2 h1 h2 hpe
            simp only [setProc_procs] at h1 h2 hpe
            by_cases hj1 : j1 = i0
            · rw [if_pos hj1] at h1
              simp at h1
            · by_cases hj2 : j2 = i0
              · rw [if_pos hj2] at h2
                simp at h2
              · rw [if_neg hj1] at h1 hpe
                rw [if_neg hj2] at h2 hpe
                exact hc.pid_inj j1 j2 h1 h2 hpe
          · intro k i hi
            simp only [setProc_sems] at hi
            simp only [setProc_procs]
            have hmem := hc.blocked_state k i hi
            have hii : i ≠ i0 := by
              intro he
              rw [he, hz] at hmem
              simp at hmem
            rw [if_neg hii]
            exact hmem
          · intro k k' i h1 h2
            simp only [setProc_sems] at h1 h2
            exact hc.blocked_once k k' i h1 h2
          · intro k
            simp only [setProc_sems]
            exact hc.blocked_nodup k
          · exact hc.next_pid_pos
        · intro _ i
          simp only [setProc_procs]
          by_cases hji : i = i0
          · rw [if_pos hji]
            simp
          · rw [if_neg hji]
            exact hnr i
        · intro hne
          exact absurd rfl hne
        · intro i hi
          simp only [setProc_procs] at hi
          by_cases hji : i = i0
          · rw [if_pos hji] at hi
            simp at hi
          · rw [if_neg hji] at hi
            exact absurd hi (hnr i)
        · intro hne
          exact absurd rfl hne
      · exact ⟨⟨hc.free_pid, hc.live_pid, hc.pid_inj, hc.blocked_state,
            hc.blocked_once, hc.blocked_nodup, hc.next_pid_pos⟩,
          fun _ i => hnr i, fun hne => absurd rfl hne, fun i hi => absurd hi (hnr i),
          fun hne => absurd rfl hne⟩

theorem create_process_inv {s : KState} (h : Inv s) (e : Nat) (n : Option String)
    (sz : Nat) : Inv (create_process s e n sz).1 := by
  unfold create_process
  cases hf : find_free_slot s with
  | none => exact h
  | some i =>
      have hfree := find_free_slot_some hf
      cases hm : kmalloc s.heap sz with
      | mk h' r =>
          cases r with
          | none =>
              exact ⟨⟨h.core.free_pid, h.core.live_pid, h.core.pid_inj,
                  h.core.blocked_state, h.core.blocked_once, h.core.blocked_nodup,
                  h.core.next_pid_pos⟩,
                h.run_of_none, h.cur_pos, h.run_pid, h.cur_not_blocked⟩
          | some stk =>
              constructor
              · constructor
                · intro j hj
                  simp only [Function.update_apply] at hj ⊢
                  by_cases hji : j = i
                  · rw [if_pos hji] at hj
                    simp at hj
                  · rw [if_neg hji] at hj ⊢
                    exact h.core.free_pid j hj
                · intro j hj
                  simp only [Function.update_apply] at hj ⊢
                  have hnp := h.core.next_pid_pos
                  by_cases hji : j = i
                  · rw [if_pos hji]
                    dsimp only
                    omega
                  · rw [if_neg hji] at hj ⊢
                    have := h.core.live_pid j hj
                    omega
                · intro j1 j2 h1 h2 hpe
                  simp only [Function.update_apply] at h1 h2 hpe
                  by_cases hj1 : j1 = i <;> by_cases hj2 : j2 = i
                  · rw [hj1, hj2]
                  · rw [if_pos hj1] at hpe
                    rw [if_neg hj2] at h2 hpe
                    have := h.core.live_pid j2 h2
                    dsimp only at hpe
                    omega
                  · rw [if_pos hj2] at hpe
                    rw [if_neg hj1] at h1 hpe
                    have := h.core.live_pid j1 h1
                    dsimp only at hpe
                    omega
                  · rw [if_neg hj1] at h1 hpe
                    rw [if_neg hj2] at h2 hpe
                    exact h.core.pid_inj j1 j2 h1 h2 hpe
                · intro k m hm'
                  simp only [Function.update_apply]
                  have hmem := h.core.blocked_state k m hm'
                  have hmi : m ≠ i := by
                    intro he
                    rw [he, hfree] at hmem
                    simp at hmem
                  rw [if_neg hmi]
                  exact hmem
                · exact h.core.blocked_once
                · exact h.core.blocked_nodup
                · have := h.core.next_pid_pos
                  dsimp only
                  omega
              · intro hcur j
                simp only [Function.update_apply]
                by_cases hji : j = i
                · rw [if_pos hji]
                  simp
                · rw [if_neg hji]
                  exact h.run_of_none hcur j
              · exact h.cur_pos
              · intro j hj
                simp only [Function.update_apply] at hj ⊢
                by_cases hji : j = i
                · rw [if_pos hji] at hj
                  simp at hj
                · rw [if_neg hji] at hj ⊢
                  exact h.run_pid j hj
              · intro hne j hpid
                simp only [Function.update_apply] at hpid ⊢
                by_cases hji : j = i
                · rw [if_pos hji]
                  simp
                · rw [if_neg hji] at hpid ⊢
                  exact h.cur_not_blocked hne j hpid

theorem step_dispatch_inv {s : KState} (h : Inv s) : Inv (step s .dispatch) := by
  unfold step
  split_ifs with hcur
  · cases hr : find_next_ready s s.start_idx with
    | none => exact h
    | some i =>
        have hready := find_next_ready_some hr
        have hnotrun := h.run_of_none hcur
        have hry : (s.procs i).state = .READY := by
          rcases hready with hx | hx
          · exact hx
          · exact absurd hx (hnotrun i)
        unfold run_process
        dsimp only
        split_ifs with hent
        · exact ⟨⟨h.core.free_pid, h.core.live_pid, h.core.pid_inj,
              h.core.blocked_state, h.core.blocked_once, h.core.blocked_nodup,
              h.core.next_pid_pos⟩,
            h.run_of_none, h.cur_pos, h.run_pid, h.cur_not_blocked⟩
        · have hpos : 0 < (s.procs i).pid :=
            (h.core.live_pid i (by rw [hry]; simp)).1
          constructor
          · constructor
            · intro j hj
              simp only [setProc_procs] at hj ⊢
              by_cases hji : j = i
              · rw [if_pos hji] at hj
                simp at hj
              · rw [if_neg hji] at hj ⊢
                exact h.core.free_pid j hj
            · intro j hj
              simp only [setProc_procs] at hj ⊢
              by_cases hji : j = i
              · rw [if_pos hji]
                dsimp only
                exact h.core.live_pid i (by rw [hry]; simp)
              · rw [if_neg hji] at hj ⊢
                exact h.core.live_pid j hj
            · intro j1 j2 h1 h2 hpe
              simp only [setProc_procs] at h1 h2 hpe
              by_cases hj1 : j1 = i <;> by_cases hj2 : j2 = i
              · rw [hj1, hj2]
              · rw [if_pos hj1] at hpe
                rw [if_neg hj2] at h2 hpe
                rw [hj1]
                exact (h.core.pid_inj j2 i h2 (by rw [hry]; simp) hpe.symm).symm
              · rw [if_pos hj2] at hpe
                rw [if_neg hj1] at h1 hpe
                rw [hj2]
                exact h.core.pid_inj j1 i h1 (by rw [hry]; simp) hpe
              · rw [if_neg hj1] at h1 hpe
                rw [if_neg hj2] at h2 hpe
                exact h.core.pid_inj j1 j2 h1 h2 hpe
            · intro k m hm'
              simp only [setProc_sems] at hm'
              simp only [setProc_procs]
              have hmem := h.core.blocked_state k m hm'
              have hmi : m ≠ i := by
                intro he
                rw [he, hry] at hmem
                simp at hmem
              rw [if_neg hmi]
              exact hmem
            · intro k k' m h1 h2
              simp only [setProc_sems] at h1 h2
              exact h.core.blocked_once k k' m h1 h2
            · intro k
              simp only [setProc_sems]
              exact h.core.blocked_nodup k
            · exact h.core.next_pid_pos
          · intro hcontra
            simp only [setProc_current] at hcontra
            omega
          · intro _
            simp only [setProc_current]
            omega
          · intro j hj
            simp only [setProc_procs] at hj
            simp only [setProc_procs, setProc_current]
            by_cases hji : j = i
            · rw [if_pos hji]
            · rw [if_neg hji] at hj
              exact absurd hj (hnotrun j)
          · intro _ j hpid
            simp only [setProc_procs] at hpid ⊢
            by_cases hji : j = i
            · rw [if_pos hji]
              simp
            · rw [if_neg hji] at hpid ⊢
              intro hbl
              have hji' := h.core.pid_inj j i (by rw [hbl]; simp) (by rw [hry]; simp) hpid
              exact hji hji'
  · exact h

theorem exit_pre {s : KState} (h : Inv s) (hcur : s.current ≠ -1) :
    CoreInv (exit_update s) ∧
    ∀ i, ((exit_update s).procs i).state ≠ .RUNNING := by
  have hpos := h.cur_pos hcur
  unfold exit_update
  rw [if_pos hpos]
  unfold terminate_process
  cases hp : pid_to_proc s s.current with
  | none =>
      refine ⟨h.core, ?_⟩
      intro i hi
      exact pid_to_proc_none hp hpos i (h.run_pid i hi)
  | some i0 =>
      have hpid0 := (pid_to_proc_some hp).1
      have hi0nf : (s.procs i0).state ≠ .FREE := by
        intro hf
        have := h.core.free_pid i0 hf
        omega
      constructor
      · constructor
        · intro j hj
          simp only [setProc_procs] at hj ⊢
          by_cases hji : j = i0
          · rw [if_pos hji] at hj
            simp at hj
          · rw [if_neg hji] at hj ⊢
            exact h.core.free_pid j hj
        · intro j hj
          simp only [setProc_procs] at hj ⊢
          by_cases hji : j = i0
          · rw [if_pos hji]
            exact h.core.live_pid i0 hi0nf
          · rw [if_neg hji] at hj ⊢
            exact h.core.live_pid j hj
        · intro j1 j2 h1 h2 hpe
          simp only [setProc_procs] at h1 h2 hpe
          by_cases hj1 : j1 = i0 <;> by_cases hj2 : j2 = i0
          · rw [hj1, hj2]
          · rw [if_pos hj1] at hpe
            rw [if_neg hj2] at h2 hpe
            rw [hj1]
            exact (h.core.pid_inj j2 i0 h2 hi0nf hpe.symm).symm
          · rw [if_pos hj2] at hpe
            rw [if_neg hj1] at h1 hpe
            rw [hj2]
            exact h.core.pid_inj j1 i0 h1 hi0nf hpe
          · rw [if_neg hj1] at h1 hpe
            rw [if_neg hj2] at h2 hpe
            exact h.core.pid_inj j1 j2 h1 h2 hpe
        · intro k m hm'
          simp only [setProc_sems] at hm'
          simp only [setProc_procs]
          have hmem := h.core.blocked_state k m hm'
          have hmi : m ≠ i0 := by
            intro he
            rw [he] at hmem
            exact h.cur_not_blocked hcur i0 hpid0 hmem
          rw [if_neg hmi]
          exact hmem
        · intro k k' m h1 h2
          simp only [setProc_sems] at h1 h2
          exact h.core.blocked_once k k' m h1 h2
        · intro k
          simp only [setProc_sems]
          exact h.core.blocked_nodup k
        · exact h.core.next_pid_pos
      · intro j hj
        simp only [setProc_procs] at hj
        by_cases hji : j = i0
        · rw [if_pos hji] at hj
          simp at hj
        · rw [if_neg hji] at hj
          have hpj := h.run_pid j hj
          have hjnf : (s.procs j).state ≠ .FREE := by rw [hj]; simp
          exact hji (h.core.pid_inj j i0 hjnf hi0nf (hpj.trans hpid0.symm))

theorem yield_pre {s : KState} (h : Inv s) (hcur : s.current ≠ -1) :
    CoreInv (yield_update s) ∧
    ∀ i, ((yield_update s).procs i).state ≠ .RUNNING := by
  have hpos := h.cur_pos hcur
  unfold yield_update
  cases hp : pid_to_proc s s.current with
  | none =>
      refine ⟨h.core, ?_⟩
      intro i hi
      exact pid_to_proc_none hp hpos i (h.run_pid i hi)
  | some j0 =>
      have hpid0 := (pid_to_proc_some hp).1
      have hj0nf : (s.procs j0).state ≠ .FREE := by
        intro hf
        have := h.core.free_pid j0 hf
        omega
      dsimp only
      split_ifs with hrun
      · constructor
        · constructor
          · intro j hj
            simp only [setProc_procs] at hj ⊢
            by_cases hji : j = j0
            · rw [if_pos hji] at hj
              simp at hj
            · rw [if_neg hji] at hj ⊢
              exact h.core.free_pid j hj
          · intro j hj
            simp only [setProc_procs] at hj ⊢
            by_cases hji : j = j0
            · rw [if_pos hji]
              exact h.core.live_pid j0 hj0nf
            · rw [if_neg hji] at hj ⊢
              exact h.core.live_pid j hj
          · intro j1 j2 h1 h2 hpe
            simp only [setProc_procs] at h1 h2 hpe
            by_cases hj1 : j1 = j0 <;> by_cases hj2 : j2 = j0
            · rw [hj1, hj2]
            · rw [if_pos hj1] at hpe
              rw [if_neg hj2] at h2 hpe
              rw [hj1]
              exact (h.core.pid_inj j2 j0 h2 hj0nf hpe.symm).symm
            · rw [if_pos hj2] at hpe
              rw [if_neg hj1] at h1 hpe
              rw [hj2]
              exact h.core.pid_inj j1 j0 h1 hj0nf hpe
            · rw [if_neg hj1] at h1 hpe
              rw [if_neg hj2] at h2 hpe
              exact h.core.pid_inj j1 j2 h1 h2 hpe
          · intro k m hm'
            simp only [setProc_sems] at hm'
            simp only [setProc_procs]
            have hmem := h.core.blocked_state k m hm'
            have hmi : m ≠ j0 := by
              intro he
              rw [he, hrun] at hmem
              simp at hmem
            rw [if_neg hmi]
            exact hmem
          · intro k k' m h1 h2
            simp only [setProc_sems] at h1 h2
            exact h.core.blocked_once k k' m h1 h2
          · intro k
            simp only [setProc_sems]
            exact h.core.blocked_nodup k
          · exact h.core.next_pid_pos
        · intro j hj
          simp only [setProc_procs] at hj
          by_cases hji : j = j0
          · rw [if_pos hji] at hj
            simp at hj
          · rw [if_neg hji] at hj
            have hpj := h.run_pid j hj
            have hjnf : (s.procs j).state ≠ .FREE := by rw [hj]; simp
            exact hji (h.core.pid_inj j j0 hjnf hj0nf (hpj.trans hpid0.symm))
      · refine ⟨h.core, ?_⟩
        intro j hj
        have hpj := h.run_pid j hj
        have hjnf : (s.procs j).state ≠ .FREE := by rw [hj]; simp
        have := h.core.pid_inj j j0 hjnf hj0nf (hpj.trans hpid0.symm)
        rw [this] at hj
        exact hrun hj

theorem sem_create_invP {s : KState} (h : Inv s) (v : Int) :
    Inv (sem_create s v).1 := by
  unfold sem_create
  cases hf : find_free_sem_slot s with
  | none => exact h
  | some k =>
      constructor
      · constructor
        · exact h.core.free_pid
        · exact h.core.live_pid
        · exact h.core.pid_inj
        · intro k' i hi
          simp only [Function.update_apply] at hi
          by_cases hk' : k' = k
          · rw [if_pos hk'] at hi
            simp at hi
          · rw [if_neg hk'] at hi
            exact h.core.blocked_state k' i hi
        · intro k1 k2 i h1 h2
          simp only [Function.update_apply] at h1 h2
          by_cases hk1 : k1 = k
          · rw [if_pos hk1] at h1
            simp at h1
          · by_cases hk2 : k2 = k
            · rw [if_pos hk2] at h2
              simp at h2
            · rw [if_neg hk1] at h1
              rw [if_neg hk2] at h2
              exact h.core.blocked_once k1 k2 i h1 h2
        · intro k'
          simp only [Function.update_apply]
          by_cases hk' : k' = k
          · rw [if_pos hk']
            simp
          · rw [if_neg hk']
            exact h.core.blocked_nodup k'
        · exact h.core.next_pid_pos
      · exact h.run_of_none
      · exact h.cur_pos
      · exact h.run_pid
      · exact h.cur_not_blocked

theorem sem_destroy_invP {s : KState} (h : Inv s) (id : Int) :
    Inv (sem_destroy s id).1 := by
  unfold sem_destroy
  cases hg : sem_get s id with
  | none => exact h
  | some k =>
      constructor
      · constructor
        · exact h.core.free_pid
        · exact h.core.live_pid
        · exact h.core.pid_inj
        · intro k' i hi
          simp only [setSem_sems] at hi
          by_cases hk' : k' = k
          · rw [if_pos hk'] at hi
            simp at hi
          · rw [if_neg hk'] at hi
            exact h.core.blocked_state k' i hi
        · intro k1 k2 i h1 h2
          simp only [setSem_sems] at h1 h2
          by_cases hk1 : k1 = k
          · rw [if_pos hk1] at h1
            simp at h1
          · by_cases hk2 : k2 = k
            · rw [if_pos hk2] at h2
              simp at h2
            · rw [if_neg hk1] at h1
              rw [if_neg hk2] at h2
              exact h.core.blocked_once k1 k2 i h1 h2
        · intro k'
          simp only [setSem_sems]
          by_cases hk' : k' = k
          · rw [if_pos hk']
            simp
          · rw [if_neg hk']
            exact h.core.blocked_nodup k'
        · exact h.core.next_pid_pos
      · exact h.run_of_none
      · exact h.cur_pos
      · exact h.run_pid
      · exact h.cur_not_blocked

theorem sem_signal_invP {s : KState} (h : Inv s) (id : Int) :
    Inv (sem_signal s id) := by
  unfold sem_signal
  cases hg : sem_get s id with
  | none => exact h
  | some k =>
      dsimp only
      split_ifs with hv
      · cases hl : (s.sems k).blocked_list with
        | nil =>
            constructor
            · constructor
              · exact h.core.free_pid
              · exact h.core.live_pid
              · exact h.core.pid_inj
              · intro k' i hi
                simp only [setSem_sems] at hi
                by_cases hk' : k' = k
                · rw [if_pos hk'] at hi
                  simp at hi
                · rw [if_neg hk'] at hi
                  exact h.core.blocked_state k' i hi
              · intro k1 k2 i h1 h2
                simp only [setSem_sems] at h1 h2
                by_cases hk1 : k1 = k
                · rw [if_pos hk1] at h1
                  simp at h1
                · by_cases hk2 : k2 = k
                  · rw [if_pos hk2] at h2
                    simp at h2
                  · rw [if_neg hk1] at h1
                    rw [if_neg hk2] at h2
                    exact h.core.blocked_once k1 k2 i h1 h2
              · intro k'
                simp only [setSem_sems]
                by_cases hk' : k' = k
                · rw [if_pos hk']
                  simp
                · rw [if_neg hk']
                  exact h.core.blocked_nodup k'
              · exact h.core.next_pid_pos
            · exact h.run_of_none
            · exact h.cur_pos
            · exact h.run_pid
            · exact h.cur_not_blocked
        | cons j rest =>
            have hnd := h.core.blocked_nodup k
            rw [hl] at hnd
            have hjrest : j ∉ rest := (List.nodup_cons.mp hnd).1
            have hrest_nd : rest.Nodup := (List.nodup_cons.mp hnd).2
            have hjmem : j ∈ (s.sems k).blocked_list := by
              rw [hl]; exact List.mem_cons_self j rest
            have hjelse : ∀ k', k' ≠ k → j ∉ (s.sems k').blocked_list := by
              intro k' hne hmem
              exact hne (h.core.blocked_once k' k j hmem hjmem)
            have hjbl : (s.procs j).state = .BLOCKED_SEM :=
              h.core.blocked_state k j hjmem
            have hjnf : (s.procs j).state ≠ .FREE := by rw [hjbl]; simp
            constructor
            · constructor
              · intro m hm'
                simp only [setProc_procs] at hm' ⊢
                by_cases hmj : m = j
                · rw [if_pos hmj] at hm'
                  simp at hm'
                · rw [if_neg hmj] at hm' ⊢
                  exact h.core.free_pid m hm'
              · intro m hm'
                simp only [setProc_procs] at hm' ⊢
                by_cases hmj : m = j
                · rw [if_pos hmj]
                  exact h.core.live_pid j hjnf
                · rw [if_neg hmj] at hm' ⊢
                  exact h.core.live_pid m hm'
              · intro j1 j2 h1 h2 hpe
                simp only [setProc_procs] at h1 h2 hpe
                by_cases hj1 : j1 = j <;> by_cases hj2 : j2 = j
                · rw [hj1, hj2]
                · rw [if_pos hj1] at hpe
                  rw [if_neg hj2] at h2 hpe
                  rw [hj1]
                  exact (h.core.pid_inj j2 j h2 hjnf hpe.symm).symm
                · rw [if_pos hj2] at hpe
                  rw [if_neg hj1] at h1 hpe
                  rw [hj2]
                  exact h.core.pid_inj j1 j h1 hjnf hpe
                · rw [if_neg hj1] at h1 hpe
                  rw [if_neg hj2] at h2 hpe
                  exact h.core.pid_inj j1 j2 h1 h2 hpe
              · intro k' i hi
                simp only [setProc_sems, setSem_sems] at hi
                simp only [setProc_procs]
                by_cases hk' : k' = k
                · rw [if_pos hk'] at hi
                  dsimp only at hi
                  have hij : i ≠ j := fun he => hjrest (he ▸ hi)
                  rw [if_neg hij]
                  exact h.core.blocked_state k i (by rw [hl]; exact List.mem_cons_of_mem _ hi)
                · rw [if_neg hk'] at hi
                  have hij : i ≠ j := fun he => hjelse k' hk' (he ▸ hi)
                  rw [if_neg hij]
                  exact h.core.blocked_state k' i hi
              · intro k1 k2 i h1 h2
                simp only [setProc_sems, setSem_sems] at h1 h2
                by_cases hk1 : k1 = k <;> by_cases hk2 : k2 = k
                · rw [hk1, hk2]
                · rw [if_pos hk1] at h1
                  dsimp only at h1
                  rw [if_neg hk2] at h2
                  have h1' : i ∈ (s.sems k).blocked_list := by
                    rw [hl]; exact List.mem_cons_of_mem _ h1
                  rw [hk1]
                  exact (h.core.blocked_once k2 k i h2 h1').symm
                · rw [if_neg hk1] at h1
                  rw [if_pos hk2] at h2
                  dsimp only at h2
                  have h2' : i ∈ (s.sems k).blocked_list := by
                    rw [hl]; exact List.mem_cons_of_mem _ h2
                  rw [hk2]
                  exact h.core.blocked_once k1 k i h1 h2'
                · rw [if_neg hk1] at h1
                  rw [if_neg hk2] at h2
                  exact h.core.blocked_once k1 k2 i h1 h2
              · intro k'
                simp only [setProc_sems, setSem_sems]
                by_cases hk' : k' = k
                · rw [if_pos hk']
                  exact hrest_nd
                · rw [if_neg hk']
                  exact h.core.blocked_nodup k'
              · exact h.core.next_pid_pos
            · intro hc i
              simp only [setProc_procs, setProc_current, setSem_current] at hc ⊢
              by_cases hij : i = j
              · rw [if_pos hij]
                simp
              · rw [if_neg hij]
                exact h.run_of_none hc i
            · exact h.cur_pos
            · intro i hi
              simp only [setProc_procs] at hi ⊢
              by_cases hij : i = j
              · rw [if_pos hij] at hi
                simp at hi
              · rw [if_neg hij] at hi ⊢
                exact h.run_pid i hi
            · intro hne i hpid
              simp only [setProc_procs, setProc_current, setSem_current] at hne hpid ⊢
              by_cases hij : i = j
              · rw [if_pos hij]
                simp
              · rw [if_neg hij] at hpid ⊢
                exact h.cur_not_blocked hne i hpid
      · constructor
        · constructor
          · exact h.core.free_pid
          · exact h.core.live_pid
          · exact h.core.pid_inj
          · intro k' i hi
            simp only [setSem_sems] at hi
            by_cases hk' : k' = k
            · rw [if_pos hk'] at hi
              dsimp only at hi
              exact h.core.blocked_state k i hi
            · rw [if_neg hk'] at hi
              exact h.core.blocked_state k' i hi
          · intro k1 k2 i h1 h2
            simp only [setSem_sems] at h1 h2
            by_cases hk1 : k1 = k <;> by_cases hk2 : k2 = k
            · rw [hk1, hk2]
            · rw [if_pos hk1] at h1
              dsimp only at h1
              rw [if_neg hk2] at h2
              rw [hk1]
              exact (h.core.blocked_once k2 k i h2 h1).symm
            · rw [if_neg hk1] at h1
              rw [if_pos hk2] at h2
              dsimp only at h2
              rw [hk2]
              exact h.core.blocked_once k1 k i h1 h2
            · rw [if_neg hk1] at h1
              rw [if_neg hk2] at h2
              exact h.core.blocked_once k1 k2 i h1 h2
          · intro k'
            simp only [setSem_sems]
            by_cases hk' : k' = k
            · rw [if_pos hk']
              dsimp only
              exact h.core.blocked_nodup k
            · rw [if_neg hk']
              exact h.core.blocked_nodup k'
          · exact h.core.next_pid_pos
        · exact h.run_of_none
        · exact h.cur_pos
        · exact h.run_pid
        · exact h.cur_not_blocked

theorem sem_wait_false_inv {s s' : KState} {id : Int} (h : Inv s)
    (hw : sem_wait s id = (s', false)) : Inv s' := by
  unfold sem_wait at hw
  cases hg : sem_get s id with
  | none =>
      rw [hg] at hw
      dsimp only at hw
      simp only [Prod.mk.injEq] at hw
      obtain ⟨rfl, -⟩ := hw
      exact h
  | some k =>
      rw [hg] at hw
      dsimp only at hw
      split_ifs at hw with hv
      · cases hp : pid_to_proc s s.current with
        | some j =>
            rw [hp] at hw
            dsimp only at hw
            simp only [Prod.mk.injEq] at hw
            exact absurd hw.2 (by simp)
        | none =>
            rw [hp] at hw
            dsimp only at hw
            simp only [Prod.mk.injEq] at hw
            exact absurd hw.2 (by simp)
      · simp only [Prod.mk.injEq] at hw
        obtain ⟨rfl, -⟩ := hw
        constructor
        · constructor
          · exact h.core.free_pid
          · exact h.core.live_pid
          · exact h.core.pid_inj
          · intro k' i hi
            simp only [setSem_sems] at hi
            by_cases hk' : k' = k
            · rw [if_pos hk'] at hi
              dsimp only at hi
              exact h.core.blocked_state k i hi
            · rw [if_neg hk'] at hi
              exact h.core.blocked_state k' i hi
          · intro k1 k2 i h1 h2
            simp only [setSem_sems] at h1 h2
            by_cases hk1 : k1 = k <;> by_cases hk2 : k2 = k
            · rw [hk1, hk2]
            · rw [if_pos hk1] at h1
              dsimp only at h1
              rw [if_neg hk2] at h2
              rw [hk1]
              exact (h.core.blocked_once k2 k i h2 h1).symm
            · rw [if_neg hk1] at h1
              rw [if_pos hk2] at h2
              dsimp only at h2
              rw [hk2]
              exact h.core.blocked_once k1 k i h1 h2
            · rw [if_neg hk1] at h1
              rw [if_neg hk2] at h2
              exact h.core.blocked_once k1 k2 i h1 h2
          · intro k'
            simp only [setSem_sems]
            by_cases hk' : k' = k
            · rw [if_pos hk']
              dsimp only
              exact h.core.blocked_nodup k
            · rw [if_neg hk']
              exact h.core.blocked_nodup k'
          · exact h.core.next_pid_pos
        · exact h.run_of_none
        · exact h.cur_pos
        · exact h.run_pid
        · exact h.cur_not_blocked

theorem sem_wait_true_pre {s s' : KState} {id : Int} (h : Inv s)
    (hcur : s.current ≠ -1) (hw : sem_wait s id = (s', true)) :
    CoreInv s' ∧ ∀ i, (s'.procs i).state ≠ .RUNNING := by
  have hpos := h.cur_pos hcur
  unfold sem_wait at hw
  cases hg : sem_get s id with
  | none =>
      rw [hg] at hw
      dsimp only at hw
      simp only [Prod.mk.injEq] at hw
      exact absurd hw.2 (by simp)
  | some k =>
      rw [hg] at hw
      dsimp only at hw
      split_ifs at hw with hv
      · cases hp : pid_to_proc s s.current with
        | none =>
            rw [hp] at hw
            dsimp only at hw
            simp only [Prod.mk.injEq] at hw
            obtain ⟨rfl, -⟩ := hw
            constructor
            · constructor
              · exact h.core.free_pid
              · exact h.core.live_pid
              · exact h.core.pid_inj
              · intro k' i hi
                simp only [setSem_sems] at hi
                by_cases hk' : k' = k
                · rw [if_pos hk'] at hi
                  dsimp only at hi
                  exact h.core.blocked_state k i hi
                · rw [if_neg hk'] at hi
                  exact h.core.blocked_state k' i hi
              · intro k1 k2 i h1 h2
                simp only [setSem_sems] at h1 h2
                by_cases hk1 : k1 = k <;> by_cases hk2 : k2 = k
                · rw [hk1, hk2]
                · rw [if_pos hk1] at h1
                  dsimp only at h1
                  rw [if_neg hk2] at h2
                  rw [hk1]
                  exact (h.core.blocked_once k2 k i h2 h1).symm
                · rw [if_neg hk1] at h1
                  rw [if_pos hk2] at h2
                  dsimp only at h2
                  rw [hk2]
                  exact h.core.blocked_once k1 k i h1 h2
                · rw [if_neg hk1] at h1
                  rw [if_neg hk2] at h2
                  exact h.core.blocked_once k1 k2 i h1 h2
              · intro k'
                simp only [setSem_sems]
                by_cases hk' : k' = k
                · rw [if_pos hk']
                  dsimp only
                  exact h.core.blocked_nodup k
                · rw [if_neg hk']
                  exact h.core.blocked_nodup k'
              · exact h.core.next_pid_pos
            · intro i hi
              simp only [setSem_procs] at hi
              exact pid_to_proc_none hp hpos i (h.run_pid i hi)
        | some j =>
            rw [hp] at hw
            dsimp only at hw
            simp only [Prod.mk.injEq] at hw
            obtain ⟨rfl, -⟩ := hw
            have hpidj := (pid_to_proc_some hp).1
            have hjnb : (s.procs j).state ≠ .BLOCKED_SEM :=
              h.cur_not_blocked hcur j hpidj
            have hjnf : (s.procs j).state ≠ .FREE := by
              intro hf
              have := h.core.free_pid j hf
              omega
            have hjno : ∀ k', j ∉ (s.sems k').blocked_list := by
              intro k' hmem
              exact hjnb (h.core.blocked_state k' j hmem)
            constructor
            · constructor
              · intro m hm'
                simp only [setProc_procs] at hm' ⊢
                by_cases hmj : m = j
                · rw [if_pos hmj] at hm'
                  simp at hm'
                · rw [if_neg hmj] at hm' ⊢
                  exact h.core.free_pid m hm'
              · intro m hm'
                simp only [setProc_procs] at hm' ⊢
                by_cases hmj : m = j
                · rw [if_pos hmj]
                  exact h.core.live_pid j hjnf
                · rw [if_neg hmj] at hm' ⊢
                  exact h.core.live_pid m hm'
              · intro j1 j2 h1 h2 hpe
                simp only [setProc_procs] at h1 h2 hpe
                by_cases hj1 : j1 = j <;> by_cases hj2 : j2 = j
                · rw [hj1, hj2]
                · rw [if_pos hj1] at hpe
                  rw [if_neg hj2] at h2 hpe
                  rw [hj1]
                  exact (h.core.pid_inj j2 j h2 hjnf hpe.symm).symm
                · rw [if_pos hj2] at hpe
                  rw [if_neg hj1] at h1 hpe
                  rw [hj2]
                  exact h.core.pid_inj j1 j h1 hjnf hpe
                · rw [if_neg hj1] at h1 hpe
                  rw [if_neg hj2] at h2 hpe
                  exact h.core.pid_inj j1 j2 h1 h2 hpe
              · intro k' i hi
                simp only [setProc_sems, setSem_sems] at hi
                simp only [setProc_procs]
                by_cases hk' : k' = k
                · rw [if_pos hk'] at hi
                  dsimp only at hi
                  rcases List.mem_cons.mp hi with he | hi'
                  · rw [if_pos he]
                  · have hij : i ≠ j := fun heq => hjno k (heq ▸ hi')
                    rw [if_neg hij]
                    exact h.core.blocked_state k i hi'
                · rw [if_neg hk'] at hi
                  have hij : i ≠ j := fun heq => hjno k' (heq ▸ hi)
                  rw [if_neg hij]
                  exact h.core.blocked_state k' i hi
              · intro k1 k2 i h1 h2
                simp only [setProc_sems, setSem_sems] at h1 h2
                by_cases hk1 : k1 = k <;> by_cases hk2 : k2 = k
                · rw [hk1, hk2]
                · rw [if_pos hk1] at h1
                  dsimp only at h1
                  rw [if_neg hk2] at h2
                  rcases List.mem_cons.mp h1 with he | h1'
                  · exact absurd h2 (he ▸ hjno k2)
                  · rw [hk1]
                    exact (h.core.blocked_once k2 k i h2 h1').symm
                · rw [if_neg hk1] at h1
                  rw [if_pos hk2] at h2
                  dsimp only at h2
                  rcases List.mem_cons.mp h2 with he | h2'
                  · exact absurd h1 (he ▸ hjno k1)
                  · rw [hk2]
                    exact h.core.blocked_once k1 k i h1 h2'
                · rw [if_neg hk1] at h1
                  rw [if_neg hk2] at h2
                  exact h.core.blocked_once k1 k2 i h1 h2
              · intro k'
                simp only [setProc_sems, setSem_sems]
                by_cases hk' : k' = k
                · rw [if_pos hk']
                  dsimp only
                  exact List.nodup_cons.mpr ⟨hjno k, h.core.blocked_nodup k⟩
                · rw [if_neg hk']
                  exact h.core.blocked_nodup k'
              · exact h.core.next_pid_pos
            · intro i hi
              simp only [setProc_procs, setSem_procs] at hi
              by_cases hij : i = j
              · rw [if_pos hij] at hi
                simp at hi
              · rw [if_neg hij] at hi
                have hpi := h.run_pid i hi
                have hinf : (s.procs i).state ≠ .FREE := by rw [hi]; simp
                exact hij (h.core.pid_inj i j hinf hjnf (hpi.trans hpidj.symm))
      · simp only [Prod.mk.injEq] at hw
        exact absurd hw.2 (by simp)

theorem step_syscall_eq (s : KState) (id : Nat) (a0 : Int) (h : ¬ s.current = -1) :
    step s (.syscall id a0) =
      match trap_handler s 0 id a0 with
      | ⟨s', .task _, _, _⟩ => s'
      | ⟨s', .hook, _, _⟩ => scheduler_process_return s' := by
  simp only [step, if_neg h]

theorem trap_exit_eq (s : KState) (mepc : Nat) (a0 : Int) :
    trap_handler s mepc SYSCALL_EXIT a0 = ⟨exit_update s, .hook, none, false⟩ := rfl

theorem trap_yield_eq (s : KState) (mepc : Nat) (a0 : Int) :
    trap_handler s mepc SYSCALL_YIELD a0 = ⟨yield_update s, .hook, none, false⟩ := rfl

theorem trap_sem_create_eq (s : KState) (mepc : Nat) (a0 : Int) :
    trap_handler s mepc SYSCALL_SEM_CREATE a0 =
      ⟨(sem_create s a0).1, .task (mepc + 4), some (sem_create s a0).2, false⟩ := rfl

theorem trap_sem_wait_eq (s : KState) (mepc : Nat) (a0 : Int) :
    trap_handler s mepc SYSCALL_SEM_WAIT a0 = sem_wait_trap s mepc a0 := rfl

theorem trap_sem_signal_eq (s : KState) (mepc : Nat) (a0 : Int) :
    trap_handler s mepc SYSCALL_SEM_SIGNAL a0 =
      ⟨sem_signal s a0, .task (mepc + 4), some 0, false⟩ := rfl

theorem trap_sem_destroy_eq (s : KState) (mepc : Nat) (a0 : Int) :
    trap_handler s mepc SYSCALL_SEM_DESTROY a0 =
      ⟨(sem_destroy s a0).1, .task (mepc + 4),
        some (if (sem_destroy s a0).2 then 0 else -1), false⟩ := rfl

theorem trap_unknown_eq (s : KState) (mepc : Nat) {id : Nat} (a0 : Int)
    (h : ¬ id ∈ knownSyscalls) :
    trap_handler s mepc id a0 = ⟨s, .hook, none, true⟩ := by
  simp only [knownSyscalls, List.mem_cons, List.not_mem_nil, or_false] at h
  push_neg at h
  obtain ⟨h1, h2, h3, h4, h5, h6⟩ := h
  unfold trap_handler
  rw [if_neg h1, if_neg h2, if_neg h3, if_neg h4, if_neg h5, if_neg h6]

theorem init_inv (hp : Heap) : Inv (scheduler_init hp) := by
  constructor
  · constructor
    · intro i _
      rfl
    · intro i hi
      exact absurd rfl hi
    · intro i j hi _ _
      exact absurd rfl hi
    · intro k i hi
      simp [scheduler_init, initSem] at hi
    · intro k k' i hi _
      simp [scheduler_init, initSem] at hi
    · intro k
      simp [scheduler_init, initSem]
    · exact Int.zero_lt_one
  · intro _ i
    simp [scheduler_init, initProcess]
  · intro hne
    exact absurd rfl hne
  · intro i hi
    simp [scheduler_init, initProcess] at hi
  · intro hne
    exact absurd rfl hne

theorem step_inv {s : KState} (h : Inv s) {e : Event} (hg : GoodEvent e) :
    Inv (step s e) := by
  cases e with
  | create e n sz => exact create_process_inv h e n sz
  | dispatch => exact step_dispatch_inv h
  | run_pid pid => exact absurd hg (by simp [GoodEvent])
  | entry_return => exact absurd hg (by simp [GoodEvent])
  | syscall id a0 =>
      by_cases hcur : s.current = -1
      · have hs : step s (.syscall id a0) = s := by
          simp [step, hcur]
        rw [hs]
        exact h
      · rw [step_syscall_eq s id a0 hcur]
        have hmem : id ∈ knownSyscalls := hg
        simp only [knownSyscalls, List.mem_cons, List.not_mem_nil, or_false] at hmem
        rcases hmem with rfl | rfl | rfl | rfl | rfl | rfl
        · rw [trap_exit_eq]
          obtain ⟨hc, hnr⟩ := exit_pre h hcur
          exact hook_inv hc hnr
        · rw [trap_yield_eq]
          obtain ⟨hc, hnr⟩ := yield_pre h hcur
          exact hook_inv hc hnr
        · rw [trap_sem_create_eq]
          exact sem_create_invP h a0
        · rw [trap_sem_wait_eq]
          unfold sem_wait_trap
          cases hw : sem_wait s a0 with
          | mk s' b =>
              cases b with
              | false =>
                  dsimp only
                  exact sem_wait_false_inv h hw
              | true =>
                  dsimp only
                  obtain ⟨hc, hnr⟩ := sem_wait_true_pre h hcur hw
                  exact hook_inv hc hnr
        · rw [trap_sem_signal_eq]
          exact sem_signal_invP h a0
        · rw [trap_sem_destroy_eq]
          exact sem_destroy_invP h a0

theorem reachable_inv {s : KState} (h : ReachableGood s) : Inv s := by
  induction h with
  | base hp => exact init_inv hp
  | next s e hs hg ih => exact step_inv ih hg

/-! ## Failure atomicity of the single-level filesystem operations -/

theorem mkdir_fail_eq {s : FATState} {d : DirRef} {name : String}
    (h : (FAT.mkdir s d name).2 = none) : (FAT.mkdir s d name).1 = s := by
  unfold FAT.mkdir at h ⊢
  split_ifs at h ⊢
  · rfl
  · rfl
  · rfl
  · cases hf : (List.finRange MAX_DIRS).find?
        (fun i => decide ((s.dir_pool i).used = false)) with
    | none => rfl
    | some i =>
        rw [hf] at h
        simp at h

theorem touch_fail_eq {s : FATState} {d : DirRef} {name : String}
    (h : (FAT.touch s d name).2 = none) : (FAT.touch s d name).1 = s := by
  unfold FAT.touch at h ⊢
  split_ifs at h ⊢
  · rfl
  · rfl
  · rfl
  · cases hf : (List.finRange MAX_FILES).find?
        (fun i => decide ((s.file_pool i).used = false)) with
    | none => rfl
    | some i =>
        rw [hf] at h
        simp at h

theorem rmdir_fail_eq {s : FATState} {d : DirRef} {name : String}
    (h : (FAT.rmdir s d name).2 = false) : (FAT.rmdir s d name).1 = s := by
  unfold FAT.rmdir at h ⊢
  cases hf : (s.getDir d).subdirs.findIdx?
      (fun r => decide ((s.getDir r).name = name)) with
  | none => rfl
  | some i =>
      rw [hf] at h
      dsimp only at h ⊢
      split_ifs at h ⊢
      · rfl

theorem rm_fail_eq {s : FATState} {d : DirRef} {name : String}
    (h : (FAT.rm s d name).2 = false) : (FAT.rm s d name).1 = s := by
  unfold FAT.rm at h ⊢
  cases hf : (s.getDir d).files.findIdx?
      (fun fi => decide ((s.file_pool fi).name = name)) with
  | none => rfl
  | some i =>
      rw [hf] at h
      simp at h

theorem mv_fail_eq {s : FATState} {src : DirRef} {name : String} {dst : DirRef}
    (h : (FAT.mv s src name dst).2 = false) : (FAT.mv s src name dst).1 = s := by
  unfold FAT.mv at h ⊢
  cases hf : FAT.find_file s src name with
  | none => rfl
  | some f =>
      rw [hf] at h
      dsimp only at h ⊢
      split_ifs at h ⊢
      · rfl

/-! ## The claims -/

/-- C1 (amended): at every state reachable from `scheduler_init` through the
kernel's transitions — process creation, scheduler selection with
`run_process` dispatch, syscall handling via the trap handler, and the return
hook — at most one PCB in the process table has state RUNNING, provided
(i) every trapping task uses a known syscall id, (ii) no task's entry returns
normally, and (iii) `run_process` is entered only from the scheduler loop,
never through a nested `scheduler_run_pid` dispatch issued by a running task.
Each excluded path yields two RUNNING PCBs: an unknown syscall or a normal
entry return leaves a stale RUNNING PCB that the next dispatch duplicates,
and `scheduler_run_pid` (the shell's `run` command) makes the started task
RUNNING while its caller's PCB is still RUNNING — see the counterexample. -/
theorem C1_at_most_one_running {s : KState} (h : ReachableGood s) :
    atMostOneRunning s :=
  (reachable_inv h).atMostOne

/-- Witness for C1 at the reachable state with one dispatched task. -/
theorem C1_witness : atMostOneRunning sA :=
  C1_at_most_one_running
    (ReachableGood.next _ .dispatch
      (ReachableGood.next _ (.create 1 none 4096) (ReachableGood.base heap0) trivial)
      trivial)

/-- Counterexample to C1 as stated, two ways.  First, the nested dispatch of
shell.cpp `cmd_run`: dispatch the shell (slot 0, RUNNING), create a program
(slot 1) and start it with `scheduler_run_pid` — `run_process` marks slot 1
RUNNING while slot 0 is still RUNNING, using only process creation and
run_process dispatch, with no unknown syscall and no entry return.  Second,
the unknown-syscall path: a dispatched task issues syscall 0xDEAD, the trap
handler sends control into the return hook, which leaves its PCB RUNNING,
and the next dispatch makes a second PCB RUNNING. -/
theorem C1_counterexample :
    (((steps init0 [.create 1 none 4096, .dispatch, .create 2 none 4096,
        .run_pid 2]).procs 0).state = .RUNNING ∧
     ((steps init0 [.create 1 none 4096, .dispatch, .create 2 none 4096,
        .run_pid 2]).procs 1).state = .RUNNING ∧
     ¬ atMostOneRunning (steps init0 [.create 1 none 4096, .dispatch,
        .create 2 none 4096, .run_pid 2])) ∧
    (((steps init0 [.create 1 none 4096, .create 2 none 4096, .dispatch,
        .syscall 57005 0, .dispatch]).procs 0).state = .RUNNING ∧
     ((steps init0 [.create 1 none 4096, .create 2 none 4096, .dispatch,
        .syscall 57005 0, .dispatch]).procs 1).state = .RUNNING) := by
  refine ⟨⟨by decide, by decide, fun hone => ?_⟩, by decide, by decide⟩
  have h01 := hone 0 1 (by decide) (by decide)
  exact absurd h01 (by decide)

/-- C2 (amended): for well-formed semaphore tables and a RUNNING current
task, each of `sem_create`, `sem_wait`, `sem_signal`, `sem_destroy`
re-establishes the invariant — count ≥ 0 gives an empty wait list, count < 0
gives exactly `-count` BLOCKED_SEM PCBs with matching `blocked_sem_id` —
provided `sem_create` receives a nonnegative initial count (a negative
initial count violates the invariant at once, see the counterexample). -/
theorem C2_sem_ops_invariant {s : KState} (hwf : SemWF s) {j : Fin MAX_PROCS}
    (hj : pid_to_proc s s.current = some j)
    (hrun : (s.procs j).state = .RUNNING)
    {v : Int} (hv : 0 ≤ v) (id : Int) :
    SemInvariant (sem_create s v).1 ∧ SemInvariant (sem_wait s id).1 ∧
    SemInvariant (sem_signal s id) ∧ SemInvariant (sem_destroy s id).1 :=
  ⟨(sem_create_semWF hwf hv).semInvariant,
   (sem_wait_semWF hwf hj hrun id).semInvariant,
   (sem_signal_semWF hwf id).semInvariant,
   (sem_destroy_semWF hwf id).semInvariant⟩

/-- Witness for C2 at the concrete state `sA` (current task RUNNING). -/
theorem C2_witness :
    SemInvariant (sem_create sA 1).1 ∧ SemInvariant (sem_wait sA 5).1 ∧
    SemInvariant (sem_signal sA 5) ∧ SemInvariant (sem_destroy sA 5).1 :=
  @C2_sem_ops_invariant sA ⟨by decide, by decide, by decide, by decide, by decide⟩
    0 (by decide) (by decide) 1 (by decide) 5

/-- Counterexample to C2 as stated: the running task calls
`sem_create(-1)`; the new in-use semaphore has count -1 and an empty wait
list, so the invariant fails right after a semaphore operation. -/
theorem C2_counterexample : ¬ SemInvariant (sem_create sA (-1)).1 := by
  intro hsi
  have h0 := hsi 0 (by decide)
  have hlen := (h0.2 (by decide)).1
  revert hlen
  decide

/-- C3 (amended): when the task whose pid is `current` issues SYSCALL_EXIT,
`terminate_process` marks its PCB ZOMBIE and the return hook entered by the
trap handler reclaims the slot: state FREE, pid 0, and null name, entry,
stack, stack_top and next_blocked.  (A normal entry return performs no such
transition — the PCB stays RUNNING, see the counterexample.) -/
theorem C3_exit_reclaims {s : KState} {i : Fin MAX_PROCS}
    (h : pid_to_proc s s.current = some i) :
    ((terminate_process s s.current).procs i).state = .ZOMBIE ∧
    ((step s (.syscall SYSCALL_EXIT 0)).procs i).state = .FREE ∧
    ((step s (.syscall SYSCALL_EXIT 0)).procs i).pid = 0 ∧
    ((step s (.syscall SYSCALL_EXIT 0)).procs i).name = none ∧
    ((step s (.syscall SYSCALL_EXIT 0)).procs i).entry = none ∧
    ((step s (.syscall SYSCALL_EXIT 0)).procs i).stack = none ∧
    ((step s (.syscall SYSCALL_EXIT 0)).procs i).stack_top = none ∧
    ((step s (.syscall SYSCALL_EXIT 0)).procs i).next_blocked = none := by
  have hsome := pid_to_proc_some h
  have hcur : ¬ s.current = -1 := by omega
  have hterm : terminate_process s s.current
      = s.setProc i { s.procs i with state := .ZOMBIE } := by
    unfold terminate_process
    rw [h]
  have hpids : ∀ m, ((s.setProc i { s.procs i with state := .ZOMBIE }).procs m).pid
      = (s.procs m).pid := by
    intro m
    simp only [setProc_procs]
    split_ifs with hm
    · rw [hm]
    · rfl
  have hstep : step s (.syscall SYSCALL_EXIT 0)
      = scheduler_process_return (s.setProc i { s.procs i with state := .ZOMBIE }) := by
    rw [step_syscall_eq s SYSCALL_EXIT 0 hcur, trap_exit_eq]
    unfold exit_update
    rw [if_pos hsome.2, hterm]
  have hp2 : pid_to_proc (s.setProc i { s.procs i with state := .ZOMBIE })
      (s.setProc i { s.procs i with state := .ZOMBIE }).current = some i := by
    rw [setProc_current, pid_to_proc_congr s.current hpids]
    exact h
  have hzom : ((s.setProc i { s.procs i with state := .ZOMBIE }).procs i).state
      = ProcState.ZOMBIE := by
    simp
  have hret : scheduler_process_return (s.setProc i { s.procs i with state := .ZOMBIE })
      = { (s.setProc i { s.procs i with state := .ZOMBIE }).setProc i
            { pid := 0, name := none, entry := none, stack := none, stack_top := none,
              stack_size := 0, state := .FREE, blocked_sem_id := -1, next_blocked := none }
          with current := -1 } := by
    unfold scheduler_process_return
    rw [hp2]
    dsimp only
    rw [if_pos hzom]
  refine ⟨by rw [hterm]; simp, ?_, ?_, ?_, ?_, ?_, ?_, ?_⟩ <;>
    rw [hstep, hret] <;> simp

/-- Witness for C3 at the concrete state `sA`. -/
theorem C3_witness :
    ((terminate_process sA sA.current).procs 0).state = .ZOMBIE ∧
    ((step sA (.syscall SYSCALL_EXIT 0)).procs 0).state = .FREE ∧
    ((step sA (.syscall SYSCALL_EXIT 0)).procs 0).pid = 0 ∧
    ((step sA (.syscall SYSCALL_EXIT 0)).procs 0).name = none ∧
    ((step sA (.syscall SYSCALL_EXIT 0)).procs 0).entry = none ∧
    ((step sA (.syscall SYSCALL_EXIT 0)).procs 0).stack = none ∧
    ((step sA (.syscall SYSCALL_EXIT 0)).procs 0).stack_top = none ∧
    ((step sA (.syscall SYSCALL_EXIT 0)).procs 0).next_blocked = none :=
  @C3_exit_reclaims sA 0 (by decide)

/-- Counterexample to C3 as stated: when the dispatched task's entry returns
normally (the `entry_return` transition), the return hook runs but the PCB is
never marked ZOMBIE — it remains RUNNING with its pid, and the slot is not
reclaimed. -/
theorem C3_counterexample :
    ((steps init0 [.create 1 none 4096, .dispatch, .entry_return]).procs 0).state
      = .RUNNING ∧
    ((steps init0 [.create 1 none 4096, .dispatch, .entry_return]).procs 0).pid = 1 := by
  exact ⟨by decide, by decide⟩

/-- C4 (amended): for an environment call (mcause 11) whose syscall id is not
one of {93, 124, 150, 151, 152, 153}, the trap handler prints the diagnostic
and writes `kernel_resume_pc` into `mepc`: control re-enters the scheduler's
return hook, the calling task is NOT resumed at the instruction after the
ecall, and the kernel state is left untouched. -/
theorem C4_unknown_syscall_to_hook (s : KState) (mepc : Nat) {id : Nat} (a0 : Int)
    (h : ¬ id ∈ knownSyscalls) :
    trap_handler s mepc id a0 = ⟨s, .hook, none, true⟩ :=
  trap_unknown_eq s mepc a0 h

/-- Witness for C4 at syscall id 0xDEAD = 57005. -/
theorem C4_witness : trap_handler init0 100 57005 0 = ⟨init0, .hook, none, true⟩ :=
  @C4_unknown_syscall_to_hook init0 100 57005 0 (by decide)

/-- Counterexample to C4 as stated: for a7 = 0xDEAD the handler's destination
is the return hook, not the instruction after the ecall (`mepc + 4`). -/
theorem C4_counterexample :
    (trap_handler init0 100 57005 0).dest = .hook ∧
    TrapDest.hook ≠ TrapDest.task (100 + 4) ∧
    (trap_handler init0 100 57005 0).unknown_diag = true := by decide

/-- C5 (amended): every failing single-level operation — mkdir, touch, rmdir,
rm, mv — leaves the filesystem state (every pool flag, child array and count)
exactly as it was.  `mkdir_recursive` is NOT failure-atomic across segments:
when a later segment fails, directories created for earlier segments remain
(see the counterexample). -/
theorem C5_single_op_failure_atomic (s : FATState) (d dst : DirRef) (name : String) :
    ((FAT.mkdir s d name).2 = none → (FAT.mkdir s d name).1 = s) ∧
    ((FAT.touch s d name).2 = none → (FAT.touch s d name).1 = s) ∧
    ((FAT.rmdir s d name).2 = false → (FAT.rmdir s d name).1 = s) ∧
    ((FAT.rm s d name).2 = false → (FAT.rm s d name).1 = s) ∧
    ((FAT.mv s d name dst).2 = false → (FAT.mv s d name dst).1 = s) :=
  ⟨fun h => mkdir_fail_eq h, fun h => touch_fail_eq h, fun h => rmdir_fail_eq h,
   fun h => rm_fail_eq h, fun h => mv_fail_eq h⟩

/-- Witness for C5: all five operations fail on the empty name and leave the
fresh filesystem unchanged. -/
theorem C5_witness :
    (FAT.mkdir fat0 .root "").1 = fat0 ∧ (FAT.touch fat0 .root "").1 = fat0 ∧
    (FAT.rmdir fat0 .root "").1 = fat0 ∧ (FAT.rm fat0 .root "").1 = fat0 ∧
    (FAT.mv fat0 .root "" .root).1 = fat0 := by
  obtain ⟨h1, h2, h3, h4, h5⟩ := C5_single_op_failure_atomic fat0 .root .root ""
  exact ⟨h1 (by decide), h2 (by decide), h3 (by decide), h4 (by decide), h5 (by decide)⟩

/-- Counterexample to C5 as stated: `mkdir_recursive(root, "a//b")` fails on
the empty second segment but has already created "a" — a pool flag changed on
a failing call. -/
theorem C5_counterexample :
    (FAT.mkdir_recursive fat0 .root "a//b").2 = none ∧
    ((FAT.mkdir_recursive fat0 .root "a//b").1.dir_pool 0).used = true ∧
    (fat0.dir_pool 0).used = false := by decide

/-- C6 (code bug): `mv` implements the move with `rm`, which clears the moved
file's pool `used` flag; after `mv(root, "f", d)` succeeds, `d` references
pool file 0 while that slot is marked free, and the next `touch(d, "g")`
claims the very same slot. -/
theorem C6_mv_clears_used_flag :
    (FAT.mv s_fd .root "f" (.pool 0)).2 = true ∧
    ((FAT.mv s_fd .root "f" (.pool 0)).1.getDir (.pool 0)).files = [0] ∧
    ((FAT.mv s_fd .root "f" (.pool 0)).1.file_pool 0).used = false ∧
    (FAT.touch (FAT.mv s_fd .root "f" (.pool 0)).1 (.pool 0) "g").2 = some 0 := by
  decide

/-- C7 (amended): `kmalloc(size)` computes its aligned size in 64-bit
arithmetic — `aligned = ((size mod 2^64) + 15) mod 2^64` rounded down to a
multiple of 16, which wraps to 0 for sizes of 2^64 - 15 and above — and
returns null exactly when `size mod 2^64 = 0` or
`heap_ptr + aligned >= heap_limit` (the code refuses an exact fit: `>=`, not
the specification's `>`); otherwise it returns the previous `heap_ptr` and
advances it by `aligned` (by 0 in the wrapped case); a null return leaves the
heap unchanged, and 16-byte alignment of `heap_ptr` is preserved by every
allocation. -/
theorem C7_kmalloc_contract (h : Heap) (size : Nat) (hal : h.heap_ptr % 16 = 0) :
    ((kmalloc h size).2 = none ↔
      size % 2 ^ 64 = 0 ∨
        h.heap_limit ≤ h.heap_ptr + (size % 2 ^ 64 + 15) % 2 ^ 64 / 16 * 16) ∧
    ((kmalloc h size).2 = none → (kmalloc h size).1 = h) ∧
    (size % 2 ^ 64 ≠ 0 →
      h.heap_ptr + (size % 2 ^ 64 + 15) % 2 ^ 64 / 16 * 16 < h.heap_limit →
      (kmalloc h size).2 = some h.heap_ptr ∧
      (kmalloc h size).1.heap_ptr
        = h.heap_ptr + (size % 2 ^ 64 + 15) % 2 ^ 64 / 16 * 16 ∧
      (kmalloc h size).1.heap_ptr % 16 = 0) := by
  unfold kmalloc
  split_ifs with h0 hlim
  · exact ⟨iff_of_true rfl (Or.inl h0), fun _ => rfl, fun hc => absurd h0 hc⟩
  · exact ⟨iff_of_true rfl (Or.inr hlim), fun _ => rfl,
      fun _ hlt => absurd hlim (by omega)⟩
  · refine ⟨iff_of_false (by simp) ?_, by simp, fun _ _ => ⟨rfl, rfl, ?_⟩⟩
    · rintro (hc | hc)
      · exact h0 hc
      · exact hlim hc
    · show (h.heap_ptr + (size % 2 ^ 64 + 15) % 2 ^ 64 / 16 * 16) % 16 = 0
      have h16 : (size % 2 ^ 64 + 15) % 2 ^ 64 / 16 * 16 % 16 = 0 :=
        Nat.mul_mod_left _ 16
      omega

/-- Witness for C7 at the heap [0, 100) and size 20 (aligned to 32). -/
theorem C7_witness :
    (kmalloc ⟨0, 100⟩ 20).2 = some 0 ∧
    (kmalloc ⟨0, 100⟩ 20).1.heap_ptr = 32 ∧
    (kmalloc ⟨0, 100⟩ 20).1.heap_ptr % 16 = 0 :=
  (C7_kmalloc_contract ⟨0, 100⟩ 20 (by decide)).2.2 (by decide) (by decide)

/-- Counterexample to C7 as stated: an exact fit (16 free bytes, request 16)
is refused by the code although `heap_ptr + aligned_size > heap_limit` does
not hold; and for size 2^64 - 1 the 64-bit alignment wraps to 0, so the code
returns the current `heap_ptr` (advancing by nothing) although the claim's
mathematical `heap_ptr + aligned_size > heap_limit` demands null. -/
theorem C7_counterexample :
    ((kmalloc ⟨0, 16⟩ 16).2 = none ∧ (16 : Nat) ≠ 0 ∧
      ¬ ((0 : Nat) + (16 + 15) / 16 * 16 > 16)) ∧
    ((kmalloc ⟨0, 16⟩ (2 ^ 64 - 1)).2 = some 0 ∧
      (kmalloc ⟨0, 16⟩ (2 ^ 64 - 1)).1.heap_ptr = 0 ∧
      (0 : Nat) + (2 ^ 64 - 1 + 15) > 16) := by decide

/-- C8 (code bug): after `touch(root, "f")` and `edit(root, "f", "hi")`, `cat`
emits the bytes at indices 0..size INCLUSIVE and then the newline — here
"hi", a stray 0 byte, and 10 — one byte more than the stored size. -/
theorem C8_cat_emits_extra_byte :
    (s_hi.file_pool 0).size = 2 ∧
    cmd_cat_out s_hi .root "f" = some [104, 105, 0, 10] ∧
    cmd_cat_out s_hi .root "f" ≠ some [104, 105, 10] := by decide

/-- C9 (code bug): `is_name_invalid` performs no length check, so `touch`
accepts the 16-character name (strcpy then writes 17 bytes into the 16-byte
name buffer) instead of rejecting it with a null return. -/
theorem C9_length16_name_accepted :
    ("aaaaaaaaaaaaaaaa" : String).length = 16 ∧
    is_name_invalid "aaaaaaaaaaaaaaaa" = false ∧
    (FAT.touch fat0 .root "aaaaaaaaaaaaaaaa").2 = some 0 := by decide

/-- C10 (confirmed): when no in-use semaphore has the given id, `sem_wait`
and `sem_signal` return to the caller without blocking, `sem_destroy` returns
false, and the semaphore and process tables are entirely unchanged. -/
theorem C10_unknown_sem_id_no_effect {s : KState} {id : Int}
    (h : ∀ k, ¬((s.sems k).id = id ∧ (s.sems k).in_use = true)) :
    sem_wait s id = (s, false) ∧ sem_signal s id = s ∧
    sem_destroy s id = (s, false) := by
  have hg : sem_get s id = none := by
    unfold sem_get
    apply List.find?_eq_none.mpr
    intro k _
    simpa using h k
  refine ⟨?_, ?_, ?_⟩
  · unfold sem_wait
    rw [hg]
  · unfold sem_signal
    rw [hg]
  · unfold sem_destroy
    rw [hg]

/-- Witness for C10 at the freshly initialized kernel state and id 5. -/
theorem C10_witness :
    sem_wait init0 5 = (init0, false) ∧ sem_signal init0 5 = init0 ∧
    sem_destroy init0 5 = (init0, false) :=
  C10_unknown_sem_id_no_effect (by decide)

end OS
